import Mathlib

/-
Verification development for the mox admin configuration-mutation engine
(package `admin`: domain/account/address/alias/DKIM operations over the
dynamic configuration, together with the DKIM key-file lifecycle).

The Go source is embedded shallowly:

* Go maps become association lists (`List (κ × α)`) with `alookup`,
  `ainsert` (clone-and-set) and key filtering (clone-without-key) mirroring
  the copy loops in the source.
* Email address strings become the structured `AddrS` (a catchall address
  `"@domain"` is the value with empty localpart); `smtp.ParseAddress` /
  `dns.ParseDomain` on these structured values cannot fail, so the
  corresponding parse-error branches of the source disappear.
* Filesystem paths become lists of components (`filepath.Join` is list
  append, `filepath.Dir` is `dropLast`, `filepath.Base` is the last
  component, and `filepath.Clean` is the identity on these normalized
  component lists).
* The filesystem, the queue contents and the stored TLS public keys are
  explicit fields of `State`; external failures (entropy, write errors,
  persistence errors, collaborator errors) are explicit boolean oracle
  parameters.
* `time.Now` is abstracted by explicit `year`/`timestamp` parameters.

Functions of the repository that are referenced by the embedded file but
live outside it (`mox.WriteDynamicLocked`, `mox.CanonicalLocalpart`,
`mox.Conf.AccountDestinationsLocked`, `store.OpenAccount`, path resolvers)
are modelled from the specification; each such definition carries a doc
comment starting with `Modelled from the spec:`.
-/

namespace MoxAdmin

/-- Result of an operation: success or a classified error. -/
inductive Err where
  | request (msg : String)
  | internal (msg : String)
deriving DecidableEq, Repr

/-- Operation outcome, mirroring Go's `(T, error)` returns. -/
inductive Res (α : Type) where
  | ok (a : α)
  | er (e : Err)
deriving DecidableEq, Repr

/-- Structured email address; `localpart = ""` encodes the catchall form
`"@domain"`. -/
structure AddrS where
  localpart : String
  domain : String
deriving DecidableEq, Repr

/-- config.Destination; only the fields the admin operations touch are kept
(the operations only create empty destinations and copy existing ones). -/
structure Destination where
  mailbox : String
deriving DecidableEq, Repr

/-- config.Selector. -/
structure Selector where
  hash : String
  headerRelaxed : Bool
  bodyRelaxed : Bool
  headers : List String
  dontSealHeaders : Bool
  expiration : String
  privateKeyFile : List String
deriving DecidableEq, Repr

/-- config.DKIM: selector map plus the ordered signing list. -/
structure DKIM where
  selectors : List (String × Selector)
  sign : List String
deriving DecidableEq, Repr

/-- config.Alias. `ParsedAddresses` is a parse-time cache derived from
`Addresses` and is omitted. -/
structure Alias where
  addresses : List AddrS
  postPublic : Bool
  listMembers : Bool
  allowMsgFrom : Bool
deriving DecidableEq, Repr

/-- config.DMARC. -/
structure DMARC where
  account : String
  localpart : String
  mailbox : String
deriving DecidableEq, Repr

/-- config.TLSRPT. -/
structure TLSRPT where
  account : String
  localpart : String
  mailbox : String
deriving DecidableEq, Repr

/-- config.MTASTS. -/
structure MTASTS where
  policyID : String
  mode : String
  maxAgeHours : Nat
  mx : List String
deriving DecidableEq, Repr

/-- config.Domain. The source sets the legacy string field
`LocalpartCatchallSeparator`; configuration parsing exposes it as the list
`LocalpartCatchallSeparatorsEffective`, which is the only form the embedded
operations read, so only the effective list is kept. -/
structure Domain where
  clientSettingsDomain : String
  localpartCatchallSeparatorsEffective : List String
  dkim : DKIM
  dmarc : Option DMARC
  tlsrpt : Option TLSRPT
  mtasts : Option MTASTS
  aliases : List (String × Alias)
  disabled : Bool
deriving DecidableEq, Repr

/-- config.AddressAlias: the alias-membership back-reference stored on an
account at parse time. -/
structure AliasRef where
  subscriptionAddress : AddrS
  aliasLocalpart : String
  aliasDomain : String
deriving DecidableEq, Repr

/-- config.Account; junk-filter and mailbox-rule fields that no embedded
operation reads are omitted. `fromIDLoginAddresses` keeps the parsed form
(the source keeps the raw strings and a parallel parsed slice). -/
structure Account where
  domain : String
  destinations : List (AddrS × Destination)
  fromIDLoginAddresses : List AddrS
  aliases : List AliasRef
  rejectsMailbox : String
  noCustomPassword : Bool
deriving DecidableEq, Repr

/-- config.Dynamic: the published configuration snapshot. -/
structure Dynamic where
  domains : List (String × Domain)
  accounts : List (String × Account)
deriving DecidableEq, Repr

/-- A file on disk: path components plus a content tag (for key files the
tag records the generated key algorithm). -/
structure FSFile where
  path : List String
  content : String
deriving DecidableEq, Repr

/-- A queued outbound message, as seen through queue.List: owning account
and structured sender address. -/
structure QMsg where
  account : String
  senderLocalpart : String
  senderDomain : String
deriving DecidableEq, Repr

/-- store.TLSPublicKey, restricted to the fields the admin operations read. -/
structure TLSPublicKey where
  account : String
  loginAddress : AddrS
  fingerprint : String
deriving DecidableEq, Repr

/-- mox.Conf.Static, restricted to the fields DomainAdd reads. -/
structure Static where
  hostname : String
  postmasterAccount : String
  mtastsListener : Bool
deriving DecidableEq, Repr

/-- Whole-system state: the published snapshot plus the filesystem and the
external collaborator views. -/
structure State where
  published : Dynamic
  files : List FSFile
  dirs : List (List String)
  queueMsgs : List QMsg
  tlsPubKeys : List TLSPublicKey
deriving DecidableEq, Repr

/-- Go map lookup on an association list (first binding wins). -/
def alookup {κ α : Type} [DecidableEq κ] : List (κ × α) → κ → Option α
  | [], _ => none
  | (k, v) :: t, k' => if k' = k then some v else alookup t k'

/-- Go map clone-and-set: replace the binding of `k` in place (append if
absent), mirroring `m2 := clone(m); m2[k] = v`. -/
def ainsert {κ α : Type} [DecidableEq κ] : List (κ × α) → κ → α → List (κ × α)
  | [], k, v => [(k, v)]
  | (k0, v0) :: t, k, v => if k = k0 then (k, v) :: t else (k0, v0) :: ainsert t k v

/-- Go map clone-without-key (`for k,v := range m { if k != s { m2[k]=v } }`). -/
def aerase {κ α : Type} [DecidableEq κ] : List (κ × α) → κ → List (κ × α)
  | [], _ => []
  | (k0, v0) :: t, k => if k0 = k then aerase t k else (k0, v0) :: aerase t k

/-- List-of-chars substring test, embedding Go's `strings.Contains`. -/
def listContains : List Char → List Char → Bool
  | [], sub => sub.isEmpty
  | c :: t, sub => sub.isPrefixOf (c :: t) || listContains t sub

/-- `strings.Contains` on strings. -/
def strContains (s sub : String) : Bool :=
  listContains s.data sub.data

/-- Characters before the first occurrence of `sub` (the whole list when
`sub` does not occur); used to fold away a catchall-separator suffix. -/
def takeBefore : List Char → List Char → List Char
  | [], _ => []
  | c :: t, sub => if sub ≠ [] ∧ sub.isPrefixOf (c :: t) then [] else c :: takeBefore t sub

/-- `takeBefore` on strings. -/
def strTakeBefore (s sub : String) : String :=
  ⟨takeBefore s.data sub.data⟩

/-- Modelled from the spec: `mox.CanonicalLocalpart` is not in src/. Per the
glossary, canonicalization normalizes a local-part by folding the domain's
configured catchall separators: for each effective separator, the part
before its first occurrence is kept. -/
def canonicalLocalpart (lp : String) (d : Domain) : String :=
  d.localpartCatchallSeparatorsEffective.foldl (fun l sep => strTakeBefore l sep) lp

/-- Entry of the derived address index: owning account and the (already
canonicalized) localpart under which the address is configured. -/
structure ADEntry where
  account : String
  localpart : String
deriving DecidableEq, Repr

/-- Modelled from the spec: `mox.Conf.AccountDestinationsLocked` is the
index, maintained by configuration parsing outside src/, mapping every
configured destination address (catchall included) to its owning account;
per §3 an address resolves to at most one account. Here it is derived from
the published snapshot. -/
def accountDestinations (c : Dynamic) : List (AddrS × ADEntry) :=
  c.accounts.flatMap fun p =>
    p.2.destinations.map fun q => (q.1, { account := p.1, localpart := q.1.localpart })

/-- Parent directory of a path (filepath.Dir on component lists). -/
def dirOf (p : List String) : List String :=
  p.dropLast

/-- Base name of a path (filepath.Base on component lists). -/
def baseOf (p : List String) : String :=
  p.getLastD ""

/-- Modelled from the spec: the path resolvers `mox.ConfigDirPath` and
`mox.ConfigDynamicDirPath` (not in src/) resolve config-relative paths
against the single configuration directory of the path scheme in §6; both
are modelled as the same injective anchoring. -/
def configDirPath (p : List String) : List String :=
  "config" :: p

/-- Modelled from the spec: see `configDirPath`. -/
def configDynamicDirPath (p : List String) : List String :=
  configDirPath p

/-- Retirement destination of a key file: sibling `old/` directory, same
base name (`filepath.Join(filepath.Dir(p), "old", filepath.Base(p))`). -/
def retiredPath (p : List String) : List String :=
  dirOf p ++ ["old", baseOf p]

/-- Files at a given path. -/
def filesAt (files : List FSFile) (p : List String) : List FSFile :=
  files.filter fun f => f.path = p

/-- Remove a path from the filesystem (os.Remove). -/
def removeFileAt (files : List FSFile) (p : List String) : List FSFile :=
  files.filter fun f => f.path ≠ p

/-- admin.writeFile: MkdirAll on the parent (errors ignored), exclusive
create (O_EXCL), and a deferred close-and-remove that deletes the partial
file when the write or close fails (`writeFail`). -/
def writeFile (st : State) (path : List String) (data : String) (writeFail : Bool) :
    Res Unit × State :=
  let st1 : State := { st with dirs := dirOf path :: st.dirs }
  if (filesAt st1.files path).isEmpty = false then
    (Res.er (Err.internal "creating file: file exists"), st1)
  else if writeFail then
    (Res.er (Err.internal "writing file"), st1)
  else
    (Res.ok (), { st1 with files := ⟨path, data⟩ :: st1.files })

/-- admin.MakeDKIMRSAKey: fresh RSA-2048 PEM key material; fails on
entropy/library failure (`genFail`). The PEM buffer is abstracted to a tag
recording the algorithm. -/
def MakeDKIMRSAKey (genFail : Bool) : Res String :=
  if genFail then Res.er (Err.internal "generating key") else Res.ok "rsa2048-private-key"

/-- admin.MakeDKIMEd25519Key, abstracted like `MakeDKIMRSAKey`. -/
def MakeDKIMEd25519Key (genFail : Bool) : Res String :=
  if genFail then Res.er (Err.internal "generating key") else Res.ok "ed25519-private-key"

/-- admin.MakeAccountConfig: initial account configuration for an address.
Junk-filter parameters are omitted (no embedded operation reads them). -/
def MakeAccountConfig (addr : AddrS) : Account :=
  { domain := addr.domain
    destinations := [(addr, { mailbox := "" })]
    fromIDLoginAddresses := []
    aliases := []
    rejectsMailbox := "Rejects"
    noCustomPassword := true }

/-- Key-file path generated for a selector:
`dkim/<record>.<timestamp>.<kind>.privatekey.pkcs8.pem` with
`<record> = <selector>._domainkey.<domain>` (admin.go, DKIMAdd and
MakeDomainConfig). -/
def dkimKeyPath (selName domainName timestamp kind : String) : List String :=
  ["dkim",
    selName ++ "._domainkey." ++ domainName ++ "." ++ timestamp ++ "." ++ kind ++
      ".privatekey.pkcs8.pem"]

/-- All aliases of every domain have at least one member address: the
Alias invariant of §3 that the persistence validation enforces. -/
def validDynamic (c : Dynamic) : Bool :=
  c.domains.all fun p => p.2.aliases.all fun q => !q.2.addresses.isEmpty

/-- Modelled from the spec: `mox.WriteDynamicLocked` is not in src/. Per
§4.1 Publish validates that the snapshot round-trips through the
persistence format, persists it and atomically swaps the published
snapshot; on validation or I/O failure the previous snapshot remains
published. The round-trip validation is modelled as the §3 Alias invariant
(`validDynamic`), the invariant relevant to the embedded operations, and
I/O failure as the explicit `ioFail` oracle. -/
def WriteDynamicLocked (st : State) (nc : Dynamic) (ioFail : Bool) : Res Unit × State :=
  if validDynamic nc = false then
    (Res.er (Err.internal "writing domains.conf: config validation failed"), st)
  else if ioFail then
    (Res.er (Err.internal "writing domains.conf: io error"), st)
  else
    (Res.ok (), { st with published := nc })

/-- Remove a list of paths (the deferred cleanup loops over recorded paths). -/
def removeFilesAt (files : List FSFile) (ps : List (List String)) : List FSFile :=
  ps.foldl removeFileAt files

/-- The domain configuration value MakeDomainConfig assembles: selector
`<year>a`/`<year>b` entries (72h expiration, fresh RSA-2048 key paths),
signing with `<year>a` only, DMARC/TLSRPT report destinations on the given
account, optional MTA-STS, catchall separator `+`. -/
def makeSelector (selName domainName timestamp : String) : Selector :=
  { hash := "", headerRelaxed := false, bodyRelaxed := false, headers := [],
    dontSealHeaders := false, expiration := "72h",
    privateKeyFile := dkimKeyPath selName domainName timestamp "rsa2048" }

/-- See `makeSelector`. -/
def makeConfDomain (domainName hostname accountName : String) (withMTASTS : Bool)
    (year timestamp : String) : Domain :=
  { clientSettingsDomain := "mail." ++ domainName
    localpartCatchallSeparatorsEffective := ["+"]
    dkim := { selectors := ainsert (ainsert [] (year ++ "a") (makeSelector (year ++ "a") domainName timestamp)) (year ++ "b") (makeSelector (year ++ "b") domainName timestamp),
              sign := [year ++ "a"] }
    dmarc := some { account := accountName, localpart := "dmarcreports", mailbox := "DMARC" }
    tlsrpt := some { account := accountName, localpart := "tlsreports", mailbox := "TLSRPT" }
    mtasts :=
      if withMTASTS then
        some { policyID := timestamp, mode := "enforce", maxAgeHours := 24, mx := [hostname] }
      else none
    aliases := []
    disabled := false }

/-- admin.MakeDomainConfig: new domain configuration with two fresh RSA-2048
DKIM selectors `<year>a`/`<year>b`, signing with `<year>a` only; on any
failure every key file written so far is removed again (deferred cleanup of
the recorded paths). The source sets the legacy `LocalpartCatchallSeparator`
to `"+"`, which parsing exposes as the effective separator list. -/
def MakeDomainConfig (st : State) (domainName hostname accountName : String)
    (withMTASTS : Bool) (year timestamp : String) (kg1 w1 kg2 w2 : Bool) :
    Res (Domain × List (List String)) × State :=
  let pathA := configDynamicDirPath (dkimKeyPath (year ++ "a") domainName timestamp "rsa2048")
  let pathB := configDynamicDirPath (dkimKeyPath (year ++ "b") domainName timestamp "rsa2048")
  match MakeDKIMRSAKey kg1 with
  | Res.er _ => (Res.er (Err.internal "making dkim rsa private key"), st)
  | Res.ok keyA =>
  let wr1 := writeFile st pathA keyA w1
  match wr1.1 with
  | Res.er _ => (Res.er (Err.internal "writing file"), wr1.2)
  | Res.ok _ =>
  match MakeDKIMRSAKey kg2 with
  | Res.er _ =>
      (Res.er (Err.internal "making dkim rsa private key"),
        { wr1.2 with files := removeFileAt wr1.2.files pathA })
  | Res.ok keyB =>
  let wr2 := writeFile wr1.2 pathB keyB w2
  match wr2.1 with
  | Res.er _ =>
      (Res.er (Err.internal "writing file"),
        { wr2.2 with files := removeFileAt wr2.2.files pathA })
  | Res.ok _ =>
  (Res.ok (makeConfDomain domainName hostname accountName withMTASTS year timestamp,
      [pathA, pathB]), wr2.2)

/-- admin.DKIMAdd: validate the hash name, generate a key (before taking the
lock), check domain and selector, write the key file, update the config and
persist; if persisting fails the key file is removed again by the deferred
cleanup of `removePath`. -/
def DKIMAdd (st : State) (domainName selName algorithm hash : String)
    (headerRelaxed bodyRelaxed sealHdrs : Bool) (headers : List String) (lifetime : String)
    (timestamp : String) (kgFail wFail ioFail : Bool) : Res Unit × State :=
  if hash ≠ "sha256" ∧ hash ≠ "sha1" then
    (Res.er (Err.request ("unknown hash algorithm " ++ hash)), st)
  else
  match (if algorithm = "rsa" then
           match MakeDKIMRSAKey kgFail with
           | Res.er e => Res.er e
           | Res.ok k => Res.ok (k, "rsa2048")
         else if algorithm = "ed25519" then
           match MakeDKIMEd25519Key kgFail with
           | Res.er e => Res.er e
           | Res.ok k => Res.ok (k, "ed25519")
         else Res.er (Err.internal "unknown algorithm")) with
  | Res.er _ => (Res.er (Err.request "making dkim key"), st)
  | Res.ok (privKey, kind) =>
  match alookup st.published.domains domainName with
  | none => (Res.er (Err.request "domain does not exist"), st)
  | some d =>
  if (alookup d.dkim.selectors selName).isSome then
    (Res.er (Err.request "selector already exists for domain"), st)
  else
  let keyPath := dkimKeyPath selName domainName timestamp kind
  let p := configDynamicDirPath keyPath
  let wr := writeFile st p privKey wFail
  match wr.1 with
  | Res.er _ => (Res.er (Err.internal "writing key file"), wr.2)
  | Res.ok _ =>
  let nsel : Selector :=
    { hash := hash, headerRelaxed := headerRelaxed, bodyRelaxed := bodyRelaxed,
      headers := headers, dontSealHeaders := !sealHdrs, expiration := lifetime,
      privateKeyFile := keyPath }
  let nd : Domain := { d with dkim := { d.dkim with selectors := ainsert d.dkim.selectors selName nsel } }
  let nc : Dynamic := { st.published with domains := ainsert st.published.domains domainName nd }
  let wd := WriteDynamicLocked wr.2 nc ioFail
  match wd.1 with
  | Res.er e => (Res.er e, { wd.2 with files := removeFileAt wd.2.files p })
  | Res.ok _ => (Res.ok (), wd.2)

/-- admin.gatherUsedKeysPaths: the cleaned private-key paths of every
selector of every domain in the (new) snapshot. -/
def gatherUsedKeysPaths (nc : Dynamic) : List (List String) :=
  nc.domains.flatMap fun p => p.2.dkim.selectors.map fun q => q.2.privateKeyFile

/-- One pass of admin.moveAwayKeys: skip an empty or still-used path; refuse
(log only) when the retirement destination already exists; otherwise create
the `old/` directory and rename, a rename with a missing source failing
(log only). -/
def moveAwayOne (used : List (List String)) (st : State) (sel : Selector) : State :=
  if sel.privateKeyFile = [] ∨ sel.privateKeyFile ∈ used then st
  else
    let src := configDirPath sel.privateKeyFile
    let dst := configDirPath (retiredPath sel.privateKeyFile)
    if (filesAt st.files dst).isEmpty = false then st
    else
      let st1 : State := { st with dirs := dirOf dst :: st.dirs }
      match (filesAt st1.files src).head? with
      | none => st1
      | some f => { st1 with files := ⟨dst, f.content⟩ :: removeFileAt st1.files src }

/-- admin.moveAwayKeys over a selector map. -/
def moveAwayKeys (used : List (List String)) (st : State) : List (String × Selector) → State
  | [] => st
  | (_, sel) :: rest => moveAwayKeys used (moveAwayOne used st sel) rest

/-- admin.DKIMRemove: drop the selector from the selector map and the
signing list, persist, then retire the selector's key file unless another
selector still references it. -/
def DKIMRemove (st : State) (domainName selName : String) (ioFail : Bool) : Res Unit × State :=
  match alookup st.published.domains domainName with
  | none => (Res.er (Err.request "domain does not exist"), st)
  | some d =>
  match alookup d.dkim.selectors selName with
  | none => (Res.er (Err.request "selector does not exist for domain"), st)
  | some sel =>
  let nd : Domain :=
    { d with dkim := { selectors := aerase d.dkim.selectors selName,
                       sign := d.dkim.sign.filter fun n => n ≠ selName } }
  let nc : Dynamic := { st.published with domains := ainsert st.published.domains domainName nd }
  let wd := WriteDynamicLocked st nc ioFail
  match wd.1 with
  | Res.er e => (Res.er e, wd.2)
  | Res.ok _ => (Res.ok (), moveAwayKeys (gatherUsedKeysPaths nc) wd.2 [(selName, sel)])

/-- admin.DomainAdd. The source composes `nc := c` and clones only the
`Domains` map; the account updates at lines 466 and 470-476 therefore write
through the *shared* `Accounts` map of the published snapshot — modelled
here by updating `published.accounts` in place before persisting, so that a
later persistence failure leaves that mutation behind. -/
def DomainAdd (st : State) (static : Static) (disabled : Bool)
    (domainName accountName localpart : String) (year timestamp : String)
    (kg1 w1 kg2 w2 ioFail : Bool) : Res Unit × State :=
  if (alookup st.published.domains domainName).isSome then
    (Res.er (Err.request "domain already present"), st)
  else
  let mk := MakeDomainConfig st domainName static.hostname accountName static.mtastsListener
      year timestamp kg1 w1 kg2 w2
  match mk.1 with
  | Res.er _ => (Res.er (Err.internal "preparing domain config"), mk.2)
  | Res.ok (confDomain0, cleanupFiles) =>
  let st1 := mk.2
  let confDomain : Domain := { confDomain0 with disabled := disabled }
  let accExists := (alookup st.published.accounts accountName).isSome
  if accExists ∧ localpart ≠ "" then
    (Res.er (Err.request "account already exists (leave localpart empty when using an existing account)"),
      { st1 with files := removeFilesAt st1.files cleanupFiles })
  else if ¬accExists ∧ localpart = "" then
    (Res.er (Err.request "account does not yet exist (specify a localpart)"),
      { st1 with files := removeFilesAt st1.files cleanupFiles })
  else if accountName = "" then
    (Res.er (Err.request "account name is empty"),
      { st1 with files := removeFilesAt st1.files cleanupFiles })
  else
  let naccounts :=
    if ¬accExists then
      ainsert st.published.accounts accountName
        (MakeAccountConfig ⟨localpart, domainName⟩)
    else if accountName ≠ static.postmasterAccount then
      match alookup st.published.accounts accountName with
      | some nacc =>
        ainsert st.published.accounts accountName { nacc with destinations := ainsert nacc.destinations ⟨"postmaster", domainName⟩ ⟨""⟩ }
      | none => st.published.accounts
    else st.published.accounts
  let st2 : State := { st1 with published := { st1.published with accounts := naccounts } }
  let nc : Dynamic :=
    { domains := ainsert st.published.domains domainName confDomain, accounts := naccounts }
  let wd := WriteDynamicLocked st2 nc ioFail
  match wd.1 with
  | Res.er e => (Res.er e, { wd.2 with files := removeFilesAt wd.2.files cleanupFiles })
  | Res.ok _ => (Res.ok (), wd.2)

/-- admin.DomainRemove: check TLS-public-key references, drop the domain,
persist, then retire the removed domain's key files that the new snapshot no
longer references. -/
def DomainRemove (st : State) (domainName : String) (tlsListFail ioFail : Bool) :
    Res Unit × State :=
  match alookup st.published.domains domainName with
  | none => (Res.er (Err.request "domain does not exist"), st)
  | some domConf =>
  if tlsListFail then (Res.er (Err.request "listing tls public keys"), st)
  else
  match st.tlsPubKeys.find? (fun tpk => tpk.loginAddress.domain = domainName) with
  | some _ => (Res.er (Err.request "domain is still referenced in tls public key, change or remove it first"), st)
  | none =>
  let nc : Dynamic := { st.published with domains := aerase st.published.domains domainName }
  let wd := WriteDynamicLocked st nc ioFail
  match wd.1 with
  | Res.er e => (Res.er e, wd.2)
  | Res.ok _ =>
    (Res.ok (), moveAwayKeys (gatherUsedKeysPaths nc) wd.2 domConf.dkim.selectors)

/-- admin.DomainSave: look up the domain, hand a shallow copy to `xmodify`,
then persist the updated domain in a cloned domain map. -/
def DomainSave (st : State) (domainName : String) (xmodify : Domain → Res Domain)
    (ioFail : Bool) : Res Unit × State :=
  match alookup st.published.domains domainName with
  | none => (Res.er (Err.request "domain not present"), st)
  | some dom =>
  match xmodify dom with
  | Res.er e => (Res.er e, st)
  | Res.ok dom' =>
    WriteDynamicLocked st { st.published with domains := ainsert st.published.domains domainName dom' } ioFail

/-- admin.AliasAdd (via DomainSave). -/
def AliasAdd (st : State) (addr : AddrS) (alias' : Alias) (ioFail : Bool) : Res Unit × State :=
  DomainSave st addr.domain
    (fun d =>
      if (alookup d.aliases addr.localpart).isSome then
        Res.er (Err.request "alias already present")
      else
        Res.ok { d with aliases := ainsert d.aliases addr.localpart alias' })
    ioFail

/-- admin.AliasUpdate (via DomainSave): copies only the three flags onto the
stored alias. -/
def AliasUpdate (st : State) (addr : AddrS) (alias' : Alias) (ioFail : Bool) : Res Unit × State :=
  DomainSave st addr.domain
    (fun d =>
      match alookup d.aliases addr.localpart with
      | none => Res.er (Err.request "alias does not exist")
      | some a =>
        let a2 : Alias := { a with postPublic := alias'.postPublic, listMembers := alias'.listMembers, allowMsgFrom := alias'.allowMsgFrom }
        Res.ok { d with aliases := ainsert d.aliases addr.localpart a2 })
    ioFail

/-- admin.AliasRemove (via DomainSave). -/
def AliasRemove (st : State) (addr : AddrS) (ioFail : Bool) : Res Unit × State :=
  DomainSave st addr.domain
    (fun d =>
      if (alookup d.aliases addr.localpart).isSome = false then
        Res.er (Err.request "alias does not exist")
      else
        Res.ok { d with aliases := aerase d.aliases addr.localpart })
    ioFail

/-- admin.AliasAddressesAdd (via DomainSave): plain append of the given
addresses, no duplicate check. -/
def AliasAddressesAdd (st : State) (addr : AddrS) (addresses : List AddrS) (ioFail : Bool) :
    Res Unit × State :=
  if addresses = [] then (Res.er (Err.request "at least one address required"), st)
  else
    DomainSave st addr.domain
      (fun d =>
        match alookup d.aliases addr.localpart with
        | none => Res.er (Err.request "no such alias")
        | some alias' =>
          let a2 : Alias := { alias' with addresses := alias'.addresses ++ addresses }
          Res.ok { d with aliases := ainsert d.aliases addr.localpart a2 })
      ioFail

/-- The nested DeleteFunc of admin.AliasAddressesRemove: walk the member
list in order; a member is dropped when it still occurs in the
to-remove list, which shrinks as matches are consumed. Returns the
remaining members and the leftover to-remove entries. -/
def aliasRemoveFold : List AddrS → List AddrS → List AddrS × List AddrS
  | [], toRemove => ([], toRemove)
  | m :: ms, toRemove =>
    let tr := toRemove.filter fun a => a ≠ m
    if tr.length < toRemove.length then aliasRemoveFold ms tr
    else
      let r := aliasRemoveFold ms toRemove
      (m :: r.1, r.2)

/-- admin.AliasAddressesRemove (via DomainSave). -/
def AliasAddressesRemove (st : State) (addr : AddrS) (addresses : List AddrS) (ioFail : Bool) :
    Res Unit × State :=
  if addresses = [] then (Res.er (Err.request "need at least one address"), st)
  else
    DomainSave st addr.domain
      (fun d =>
        match alookup d.aliases addr.localpart with
        | none => Res.er (Err.request "no such alias")
        | some alias' =>
          let r := aliasRemoveFold alias'.addresses addresses
          if r.2 ≠ [] then Res.er (Err.request "address not found")
          else
            let a2 : Alias := { alias' with addresses := r.1 }
            Res.ok { d with aliases := ainsert d.aliases addr.localpart a2 })
      ioFail

/-- admin.checkAddressAvailable: domain must exist, the canonicalized
address must not already be configured, the localpart must not contain a
catchall separator, and the canonical localpart must not collide with an
alias. Errors are plain; callers wrap them as request errors. -/
def checkAddressAvailable (c : Dynamic) (addr : AddrS) : Res Unit :=
  match alookup c.domains addr.domain with
  | none => Res.er (Err.internal "domain does not exist")
  | some dc =>
    let lp := canonicalLocalpart addr.localpart dc
    if (alookup (accountDestinations c) ⟨lp, addr.domain⟩).isSome then
      Res.er (Err.internal "canonicalized address already configured")
    else if dc.localpartCatchallSeparatorsEffective.any (fun sep => strContains addr.localpart sep) then
      Res.er (Err.internal "localpart cannot include domain catchall separator")
    else if (alookup dc.aliases lp).isSome then
      Res.er (Err.internal "address in use as alias")
    else Res.ok ()

/-- Account directory under the data directory (mox.DataDirPath). -/
def accountDirPath (account : String) : List String :=
  ["data", "accounts", account]

/-- admin.AccountAdd: reject a duplicate account, a lingering account
directory, or an unavailable address; otherwise add the account with a
cloned account map and persist. -/
def AccountAdd (st : State) (account : String) (address : AddrS) (ioFail : Bool) :
    Res Unit × State :=
  if (alookup st.published.accounts account).isSome then
    (Res.er (Err.request "account already present"), st)
  else if accountDirPath account ∈ st.dirs then
    (Res.er (Err.request "account directory already/still exists"), st)
  else
    match checkAddressAvailable st.published address with
    | Res.er _ => (Res.er (Err.request "address not available"), st)
    | Res.ok _ =>
      WriteDynamicLocked st
        { st.published with accounts := ainsert st.published.accounts account (MakeAccountConfig address) }
        ioFail

/-- admin.AccountRemove. `store.OpenAccount` is modelled from the spec: the
credential/store collaborator opens an account by name and fails for an
account absent from the configuration. Queue draining (failing messages,
canceling webhooks, clearing suppressions) precedes the config rewrite;
each collaborator call has a failure oracle. -/
def AccountRemove (st : State) (account : String)
    (queueFailErr hookErr supErr remErr ioFail : Bool) : Res Unit × State :=
  if (alookup st.published.accounts account).isNone then
    (Res.er (Err.request "open account"), st)
  else if queueFailErr then
    (Res.er (Err.internal "failing queued messages for account before removing"), st)
  else
    let st1 : State := { st with queueMsgs := st.queueMsgs.filter fun m => m.account ≠ account }
    if hookErr then
      (Res.er (Err.internal "canceling queued webhooks for account before removing"), st1)
    else if supErr then
      (Res.er (Err.internal "listing suppressed addresses for account"), st1)
    else
      let nc : Dynamic := { st.published with accounts := aerase st.published.accounts account }
      let wd := WriteDynamicLocked st1 nc ioFail
      match wd.1 with
      | Res.er e => (Res.er e, wd.2)
      | Res.ok _ =>
        if remErr then
          (Res.er (Err.internal "account removed from configuration file, but scheduling account directory for removal failed"), wd.2)
        else (Res.ok (), wd.2)

/-- admin.AddressAdd: an address with empty localpart is the catchall for
its domain. Cloned account and destination maps; persist at the end. -/
def AddressAdd (st : State) (address : AddrS) (account : String) (ioFail : Bool) :
    Res Unit × State :=
  match alookup st.published.accounts account with
  | none => (Res.er (Err.request "account does not exist"), st)
  | some a =>
  match (if address.localpart = "" then
           if (alookup st.published.domains address.domain).isNone then
             Res.er (Err.request "domain does not exist")
           else if (alookup (accountDestinations st.published) address).isSome then
             Res.er (Err.request "catchall address already configured for domain")
           else Res.ok ()
         else
           match checkAddressAvailable st.published address with
           | Res.er _ => Res.er (Err.request "address not available")
           | Res.ok _ => Res.ok ()) with
  | Res.er e => (Res.er e, st)
  | Res.ok _ =>
    let na : Account := { a with destinations := ainsert a.destinations address ⟨""⟩ }
    WriteDynamicLocked st
      { st.published with accounts := ainsert st.published.accounts account na } ioFail

/-- The alias-membership pruning loop of admin.AddressRemove (lines
967-993): for each of the account's alias back-references matching the
removed address, the domain is looked up again in the *original* snapshot
`c` (not in the accumulator `doms`), the alias loses every member equal to
the address, an alias left empty aborts, and the updated domain replaces
whatever the accumulator held for that domain name. -/
def pruneAliases (c : Dynamic) (address : AddrS) :
    List AliasRef → List (String × Domain) → Res (List (String × Domain))
  | [], doms => Res.ok doms
  | aa :: rest, doms =>
    if aa.subscriptionAddress ≠ address then pruneAliases c address rest doms
    else
      match alookup c.domains aa.aliasDomain with
      | none => Res.er (Err.internal "cannot find domain for alias")
      | some dom =>
        match alookup dom.aliases aa.aliasLocalpart with
        | none => Res.er (Err.internal "cannot find alias")
        | some a =>
          let naddrs := a.addresses.filter fun v => v ≠ address
          if naddrs = [] then
            Res.er (Err.internal "address is last member of alias, add new members or remove alias first")
          else
            let dom' : Domain := { dom with aliases := ainsert dom.aliases aa.aliasLocalpart { a with addresses := naddrs } }
            pruneAliases c address rest (ainsert doms aa.aliasDomain dom')

/-- The drain-queue-first request error for removing a catchall whose
dependent sender is not explicitly configured for the account. -/
def drainCatchallErr (sa : AddrS) : Err :=
  Err.request ("message delivery queue contains message with sender address " ++ sa.localpart ++ "@" ++ sa.domain ++ " that depends on the catchall address, drop message from queue first")

/-- The drain-queue-first request error for removing a plain address that a
queued sender matches while no account catchall covers it. -/
def drainPlainErr (sa : AddrS) : Err :=
  Err.request ("message delivery queue contains message with sender address " ++ sa.localpart ++ "@" ++ sa.domain ++ " and no catchall address is configured, drop message from queue first")

/-- The queued-message check of admin.AddressRemove (lines 996-1022),
evaluated against the pre-call snapshot `c` over the account's queued
messages in order. -/
def queueCheck (c : Dynamic) (address : AddrS) (ad : ADEntry) : List QMsg → Res Unit
  | [] => Res.ok ()
  | m :: rest =>
    match alookup c.domains m.senderDomain with
    | none => Res.er (Err.request ("unknown sender domain " ++ m.senderDomain ++ " in queued message"))
    | some dc =>
      let sa : AddrS := ⟨canonicalLocalpart m.senderLocalpart dc, m.senderDomain⟩
      if address.localpart = "" then
        match alookup (accountDestinations c) sa with
        | some xad => if xad.account = ad.account then queueCheck c address ad rest else Res.er (drainCatchallErr sa)
        | none => Res.er (drainCatchallErr sa)
      else
        let catchallOwned :=
          match alookup (accountDestinations c) ⟨"", m.senderDomain⟩ with
          | some xad => xad.account = ad.account
          | none => false
        if catchallOwned = false ∧ sa = address then Res.er (drainPlainErr sa)
        else queueCheck c address ad rest

/-- admin.AddressRemove: resolve the address through the destination index,
drop it from the owning account's destinations (rejecting when nothing was
dropped), filter FromIDLoginAddresses, refuse on TLS-public-key references,
prune alias memberships, refuse when a queued message depends on the
address, then persist. -/
def AddressRemove (st : State) (address : AddrS) (tlsFail queueFail ioFail : Bool) :
    Res Unit × State :=
  match alookup (accountDestinations st.published) address with
  | none => (Res.er (Err.request "address does not exists"), st)
  | some ad =>
  match alookup st.published.accounts ad.account with
  | none => (Res.er (Err.internal "cannot find account"), st)
  | some a =>
  let ndests := a.destinations.filter fun p => p.1 ≠ address
  if ndests.length = a.destinations.length then
    (Res.er (Err.request "address not removed, likely a postmaster/reporting address"), st)
  else
  match alookup st.published.domains address.domain with
  | none => (Res.er (Err.request "unknown domain in address"), st)
  | some dc =>
  let fromIDs := a.fromIDLoginAddresses.filter fun fa =>
    if fa.domain ≠ address.domain then true
    else if address.localpart = "" then false
    else decide (canonicalLocalpart fa.localpart dc ≠ canonicalLocalpart address.localpart dc)
  if tlsFail then (Res.er (Err.request "listing tls public keys for account"), st)
  else
  match (st.tlsPubKeys.filter fun t => t.account = ad.account).find? (fun tpk =>
      match alookup (accountDestinations st.published)
          ⟨canonicalLocalpart tpk.loginAddress.localpart dc, tpk.loginAddress.domain⟩ with
      | some xad => xad.localpart = ad.localpart
      | none => false) with
  | some _ => (Res.er (Err.request "tls public key references this address as login address, remove the tls public key before removing the address"), st)
  | none =>
  match pruneAliases st.published address a.aliases st.published.domains with
  | Res.er e => (Res.er e, st)
  | Res.ok doms =>
  if queueFail then (Res.er (Err.internal "listing messages in queue for account"), st)
  else
  match queueCheck st.published address ad (st.queueMsgs.filter fun m => m.account = ad.account) with
  | Res.er e => (Res.er e, st)
  | Res.ok _ =>
    let na : Account := { a with destinations := ndests, fromIDLoginAddresses := fromIDs, aliases := [] }
    WriteDynamicLocked st
      { domains := doms, accounts := ainsert st.published.accounts ad.account na } ioFail

/-- `strings.HasSuffix` on the character lists of two strings. -/
def strEndsWith (s suffixStr : String) : Bool :=
  suffixStr.data.isSuffixOf s.data

/-- The key-file name as the specification words it (§6): filenames follow
the pattern `<selector>._domainkey.<domain>.<generation-timestamp>.<algorithm-tag>.privatekey.pem`.
This definition follows the spec's words, for comparison against the name
the source constructs (`dkimKeyPath`). -/
def specKeyFileName (selName domainName timestamp tag : String) : String :=
  selName ++ "._domainkey." ++ domainName ++ "." ++ timestamp ++ "." ++ tag ++ ".privatekey.pem"

/-- The spec's key-file path: the spec-pattern filename under `dkim/`. -/
def specKeyFilePath (selName domainName timestamp tag : String) : List String :=
  ["dkim", specKeyFileName selName domainName timestamp tag]

/-- The empty published snapshot. -/
def emptyDyn : Dynamic :=
  { domains := [], accounts := [] }

/-- The empty system state. -/
def state0 : State :=
  { published := emptyDyn, files := [], dirs := [], queueMsgs := [], tlsPubKeys := [] }

/-- A static configuration fixture. -/
def static0 : Static :=
  { hostname := "mx.example", postmasterAccount := "post", mtastsListener := false }

/-- A domain fixture with no DKIM selectors, no aliases and no separators. -/
def bareDomain : Domain :=
  { clientSettingsDomain := "", localpartCatchallSeparatorsEffective := [],
    dkim := { selectors := [], sign := [] }, dmarc := none, tlsrpt := none,
    mtasts := none, aliases := [], disabled := false }

/-- State fixture with a single bare domain `example.org`. -/
def stOneDomain : State :=
  { published := { domains := [("example.org", bareDomain)], accounts := [] },
    files := [], dirs := [], queueMsgs := [], tlsPubKeys := [] }

/-- Alias fixture `l1` with members `u@d` and `v@d`. -/
def aliasL1 : Alias :=
  { addresses := [⟨"u", "d"⟩, ⟨"v", "d"⟩], postPublic := false, listMembers := false,
    allowMsgFrom := false }

/-- Alias fixture `l2` with members `u@d` and `w@d`. -/
def aliasL2 : Alias :=
  { addresses := [⟨"u", "d"⟩, ⟨"w", "d"⟩], postPublic := false, listMembers := false,
    allowMsgFrom := false }

/-- Domain fixture `d` carrying the two aliases. -/
def domTwoAliases : Domain :=
  { bareDomain with aliases := [("l1", aliasL1), ("l2", aliasL2)] }

/-- Account fixture owning `u@d`, `v@d`, `w@d` and subscribed to both
aliases through `u@d`. -/
def accTwoAliases : Account :=
  { domain := "d",
    destinations := [(⟨"u", "d"⟩, ⟨""⟩), (⟨"v", "d"⟩, ⟨""⟩), (⟨"w", "d"⟩, ⟨""⟩)],
    fromIDLoginAddresses := [],
    aliases := [⟨⟨"u", "d"⟩, "l1", "d"⟩, ⟨⟨"u", "d"⟩, "l2", "d"⟩],
    rejectsMailbox := "", noCustomPassword := false }

/-- State fixture: one domain `d` with aliases `l1`, `l2`, one account
`acc` subscribed to both through `u@d`. -/
def stTwoAliases : State :=
  { published := { domains := [("d", domTwoAliases)], accounts := [("acc", accTwoAliases)] },
    files := [], dirs := [], queueMsgs := [], tlsPubKeys := [] }

/-- The alias with only the three updatable flags taken from `src`. -/
def aliasFlagsFrom (a src : Alias) : Alias :=
  { a with postPublic := src.postPublic, listMembers := src.listMembers,
           allowMsgFrom := src.allowMsgFrom }

/-- Domain with one alias binding replaced. -/
def withAlias (d : Domain) (lp : String) (a : Alias) : Domain :=
  { d with aliases := ainsert d.aliases lp a }

/-- Snapshot with one domain binding replaced. -/
def withDomain (c : Dynamic) (D : String) (d : Domain) : Dynamic :=
  { c with domains := ainsert c.domains D d }

/-- The alias with its member list replaced. -/
def aliasWithMembers (a : Alias) (ms : List AddrS) : Alias :=
  { a with addresses := ms }

/-- Fixture: domain `x.org` whose catchall belongs to account `acc`, with a
queued message from `s@x.org` (covered only by the catchall). -/
def stQCatchall : State :=
  { published :=
      { domains := [("x.org", bareDomain)],
        accounts := [("acc",
          { domain := "x.org", destinations := [(⟨"", "x.org"⟩, ⟨""⟩)],
            fromIDLoginAddresses := [], aliases := [], rejectsMailbox := "",
            noCustomPassword := false })] },
    files := [], dirs := [],
    queueMsgs := [⟨"acc", "s", "x.org"⟩], tlsPubKeys := [] }

/-- Fixture: domain `y.org` where account `acc2` owns only `p@y.org` (no
catchall), with a queued message from `p@y.org`. -/
def stQPlain : State :=
  { published :=
      { domains := [("y.org", bareDomain)],
        accounts := [("acc2",
          { domain := "y.org", destinations := [(⟨"p", "y.org"⟩, ⟨""⟩)],
            fromIDLoginAddresses := [], aliases := [], rejectsMailbox := "",
            noCustomPassword := false })] },
    files := [], dirs := [],
    queueMsgs := [⟨"acc2", "p", "y.org"⟩], tlsPubKeys := [] }

/-- A queued message of the account whose canonicalized sender address is
not explicitly configured as a destination of that account: the condition
under which the catchall branch of `queueCheck` rejects. -/
def catchallSenderUncovered (c : Dynamic) (ad : ADEntry) (m : QMsg) : Bool :=
  match alookup c.domains m.senderDomain with
  | none => false
  | some dc =>
    match alookup (accountDestinations c)
        ⟨canonicalLocalpart m.senderLocalpart dc, m.senderDomain⟩ with
    | some xad => decide (xad.account ≠ ad.account)
    | none => true

/-- A queued message whose canonicalized sender equals the plain address
being removed while no catchall of the sender's domain belongs to the
account: the condition under which the plain branch of `queueCheck`
rejects. -/
def plainSenderDependent (c : Dynamic) (ad : ADEntry) (address : AddrS) (m : QMsg) : Bool :=
  match alookup c.domains m.senderDomain with
  | none => false
  | some dc =>
    let catchallOwned :=
      match alookup (accountDestinations c) ⟨"", m.senderDomain⟩ with
      | some xad => decide (xad.account = ad.account)
      | none => false
    decide (catchallOwned = false
      ∧ (⟨canonicalLocalpart m.senderLocalpart dc, m.senderDomain⟩ : AddrS) = address)

/-- Selector fixture with key file `dkim/k1`. -/
def selC3a : Selector :=
  { hash := "", headerRelaxed := false, bodyRelaxed := false, headers := [],
    dontSealHeaders := false, expiration := "72h", privateKeyFile := ["dkim", "k1"] }

/-- Selector fixture with key file `dkim/k2`. -/
def selC3b : Selector :=
  { hash := "", headerRelaxed := false, bodyRelaxed := false, headers := [],
    dontSealHeaders := false, expiration := "72h", privateKeyFile := ["dkim", "k2"] }

/-- Domain fixture with the two selectors `s1`, `s2`, signing with `s1`. -/
def domC3 : Domain :=
  { bareDomain with dkim := { selectors := [("s1", selC3a), ("s2", selC3b)], sign := ["s1"] } }

/-- The domain value DKIMRemove persists: the selector dropped from the
selector map and from the signing list. -/
def dkimRemovedDomain (d : Domain) (sn : String) : Domain :=
  { d with dkim := { selectors := aerase d.dkim.selectors sn,
                     sign := d.dkim.sign.filter fun n => n ≠ sn } }

/-- State fixture: domain `d.org` with selectors `s1`/`s2` and both key
files on disk. -/
def stC3 : State :=
  { published := { domains := [("d.org", domC3)], accounts := [] },
    files := [⟨configDirPath ["dkim", "k1"], "KEY1"⟩, ⟨configDirPath ["dkim", "k2"], "KEY2"⟩],
    dirs := [], queueMsgs := [], tlsPubKeys := [] }

/-- State fixture: domain `example.org` with account `acc` owning
`u@example.org`. -/
def stC7 : State :=
  { published :=
      { domains := [("example.org", bareDomain)],
        accounts := [("acc",
          { domain := "example.org", destinations := [(⟨"u", "example.org"⟩, ⟨""⟩)],
            fromIDLoginAddresses := [], aliases := [], rejectsMailbox := "",
            noCustomPassword := false })] },
    files := [], dirs := [], queueMsgs := [], tlsPubKeys := [] }

theorem alookup_ainsert_self {κ α : Type} [DecidableEq κ] (l : List (κ × α)) (k : κ) (v : α) :
    alookup (ainsert l k v) k = some v := by
  induction l with
  | nil => simp [ainsert, alookup]
  | cons h t ih =>
    obtain ⟨k0, v0⟩ := h
    by_cases hk : k = k0 <;> simp [ainsert, alookup, hk, ih]

theorem alookup_ainsert_ne {κ α : Type} [DecidableEq κ] (l : List (κ × α)) (k k' : κ) (v : α)
    (h : k' ≠ k) : alookup (ainsert l k v) k' = alookup l k' := by
  induction l with
  | nil => simp [ainsert, alookup, h]
  | cons hd t ih =>
    obtain ⟨k0, v0⟩ := hd
    by_cases hk : k = k0
    · subst hk
      simp [ainsert, alookup, h]
    · by_cases hk' : k' = k0 <;> simp [ainsert, alookup, hk, hk', ih]

theorem mem_ainsert_self {κ α : Type} [DecidableEq κ] (l : List (κ × α)) (k : κ) (v : α) :
    (k, v) ∈ ainsert l k v := by
  induction l with
  | nil => simp [ainsert]
  | cons hd t ih =>
    obtain ⟨k0, v0⟩ := hd
    by_cases hk : k = k0 <;> simp [ainsert, hk, ih]

theorem mem_ainsert {κ α : Type} [DecidableEq κ] (l : List (κ × α)) (k : κ) (v : α)
    (x : κ × α) (hx : x ∈ ainsert l k v) : x = (k, v) ∨ x ∈ l := by
  induction l with
  | nil => simpa [ainsert] using hx
  | cons hd t ih =>
    obtain ⟨k0, v0⟩ := hd
    by_cases hk : k = k0
    · simp only [ainsert, if_pos hk, List.mem_cons] at hx
      rcases hx with h | h
      · exact Or.inl h
      · exact Or.inr (List.mem_cons_of_mem _ h)
    · simp only [ainsert, if_neg hk, List.mem_cons] at hx
      rcases hx with h | h
      · exact Or.inr (by simp [h])
      · rcases ih h with h' | h'
        · exact Or.inl h'
        · exact Or.inr (List.mem_cons_of_mem _ h')

theorem alookup_isSome_of_mem {κ α : Type} [DecidableEq κ] (l : List (κ × α)) (k : κ) (v : α)
    (h : (k, v) ∈ l) : (alookup l k).isSome := by
  induction l with
  | nil => simp at h
  | cons hd t ih =>
    obtain ⟨k0, v0⟩ := hd
    rcases List.mem_cons.mp h with h' | h'
    · have h1 : k = k0 := congrArg Prod.fst h'
      simp [alookup, h1]
    · by_cases hk : k = k0 <;> simp [alookup, hk, ih h']

theorem alookup_mem {κ α : Type} [DecidableEq κ] (l : List (κ × α)) (k : κ) (v : α)
    (h : alookup l k = some v) : (k, v) ∈ l := by
  induction l with
  | nil => simp [alookup] at h
  | cons hd t ih =>
    obtain ⟨k0, v0⟩ := hd
    by_cases hk : k = k0
    · subst hk
      simp [alookup] at h
      simp [h]
    · simp [alookup, hk] at h
      exact List.mem_cons_of_mem _ (ih h)

theorem alookup_aerase_self {κ α : Type} [DecidableEq κ] (l : List (κ × α)) (k : κ) :
    alookup (aerase l k) k = none := by
  induction l with
  | nil => simp [aerase, alookup]
  | cons hd t ih =>
    obtain ⟨k0, v0⟩ := hd
    by_cases hk : k0 = k
    · simp [aerase, hk, ih]
    · simp [aerase, hk, alookup, Ne.symm hk, ih]

theorem alookup_aerase_ne {κ α : Type} [DecidableEq κ] (l : List (κ × α)) (k k' : κ)
    (h : k' ≠ k) : alookup (aerase l k) k' = alookup l k' := by
  induction l with
  | nil => simp [aerase]
  | cons hd t ih =>
    obtain ⟨k0, v0⟩ := hd
    by_cases hk : k0 = k
    · subst hk
      simp [aerase, alookup, h, ih]
    · by_cases hk' : k' = k0 <;> simp [aerase, hk, alookup, hk', ih]

theorem mem_aerase {κ α : Type} [DecidableEq κ] (l : List (κ × α)) (k : κ)
    (x : κ × α) (hx : x ∈ aerase l k) : x ∈ l := by
  induction l with
  | nil => simp [aerase] at hx
  | cons hd t ih =>
    obtain ⟨k0, v0⟩ := hd
    by_cases hk : k0 = k
    · simp only [aerase, if_pos hk] at hx
      exact List.mem_cons_of_mem _ (ih hx)
    · simp only [aerase, if_neg hk, List.mem_cons] at hx
      rcases hx with h | h
      · simp [h]
      · exact List.mem_cons_of_mem _ (ih h)

theorem filesAt_nil_iff (files : List FSFile) (p : List String) :
    filesAt files p = [] ↔ ∀ f ∈ files, f.path ≠ p := by
  simp [filesAt, List.filter_eq_nil_iff]

theorem removeFileAt_of_notMem (files : List FSFile) (p : List String)
    (h : filesAt files p = []) : removeFileAt files p = files := by
  rw [filesAt_nil_iff] at h
  simpa [removeFileAt, List.filter_eq_self] using h

theorem WriteDynamicLocked_er_state (st : State) (nc : Dynamic) (io : Bool) (e : Err)
    (h : (WriteDynamicLocked st nc io).1 = Res.er e) : (WriteDynamicLocked st nc io).2 = st := by
  unfold WriteDynamicLocked at h ⊢
  cases hval : validDynamic nc <;> cases io <;> simp_all

theorem WriteDynamicLocked_ok_state (st : State) (nc : Dynamic) (io : Bool)
    (h : (WriteDynamicLocked st nc io).1 = Res.ok ()) :
    (WriteDynamicLocked st nc io).2 = { st with published := nc } := by
  unfold WriteDynamicLocked at h ⊢
  cases hval : validDynamic nc <;> cases io <;> simp_all

theorem WriteDynamicLocked_eq_ok (st : State) (nc : Dynamic) (io : Bool)
    (hval : validDynamic nc = true) (hio : io = false) :
    WriteDynamicLocked st nc io = (Res.ok (), { st with published := nc }) := by
  simp [WriteDynamicLocked, hval, hio]

theorem WriteDynamicLocked_ok_iff (st : State) (nc : Dynamic) (io : Bool) :
    (WriteDynamicLocked st nc io).1 = Res.ok () ↔ (validDynamic nc = true ∧ io = false) := by
  unfold WriteDynamicLocked
  cases hval : validDynamic nc <;> cases io <;> simp

theorem writeFile_er_files (st : State) (p : List String) (d : String) (w : Bool) (e : Err)
    (h : (writeFile st p d w).1 = Res.er e) : (writeFile st p d w).2.files = st.files := by
  unfold writeFile at h ⊢
  cases hie : (filesAt st.files p).isEmpty <;> cases w <;> simp_all

theorem writeFile_ok_files (st : State) (p : List String) (d : String) (w : Bool)
    (h : (writeFile st p d w).1 = Res.ok ()) :
    (writeFile st p d w).2.files = ⟨p, d⟩ :: st.files := by
  unfold writeFile at h ⊢
  cases hie : (filesAt st.files p).isEmpty <;> cases w <;> simp_all

theorem writeFile_ok_conds (st : State) (p : List String) (d : String) (w : Bool)
    (h : (writeFile st p d w).1 = Res.ok ()) :
    filesAt st.files p = [] ∧ w = false := by
  unfold writeFile at h
  cases hie : (filesAt st.files p).isEmpty <;> cases w <;> simp_all

theorem writeFile_published (st : State) (p : List String) (d : String) (w : Bool) :
    (writeFile st p d w).2.published = st.published := by
  unfold writeFile
  cases hie : (filesAt st.files p).isEmpty <;> cases w <;> simp_all

theorem writeFile_queue (st : State) (p : List String) (d : String) (w : Bool) :
    (writeFile st p d w).2.queueMsgs = st.queueMsgs := by
  unfold writeFile
  cases hie : (filesAt st.files p).isEmpty <;> cases w <;> simp_all

theorem writeFile_tls (st : State) (p : List String) (d : String) (w : Bool) :
    (writeFile st p d w).2.tlsPubKeys = st.tlsPubKeys := by
  unfold writeFile
  cases hie : (filesAt st.files p).isEmpty <;> cases w <;> simp_all

/-- C5: admin.writeFile creates the key file exclusively (failing when the
path is already taken), always creates the parent directory first, and on
any failure — pre-existing path, or a write/close failure — the file list
is exactly what it was before the call, so no partially-created key file
remains on disk; on success exactly the new file is added. -/
theorem C5_writeFile_exclusive_mkdir_cleanup (st : State) (path : List String)
    (data : String) (wf : Bool) :
    (writeFile st path data wf).2.dirs = dirOf path :: st.dirs
    ∧ (filesAt st.files path ≠ [] →
        (writeFile st path data wf).1 = Res.er (Err.internal "creating file: file exists"))
    ∧ (∀ e, (writeFile st path data wf).1 = Res.er e →
        (writeFile st path data wf).2.files = st.files)
    ∧ (filesAt st.files path = [] → wf = false →
        (writeFile st path data wf).1 = Res.ok ()
        ∧ (writeFile st path data wf).2.files = ⟨path, data⟩ :: st.files) := by
  cases hie : (filesAt st.files path).isEmpty with
  | true =>
    have hnil : filesAt st.files path = [] := by simpa using hie
    cases wf <;> simp [writeFile, hnil]
  | false =>
    have hne : filesAt st.files path ≠ [] := by
      intro hc
      rw [hc] at hie
      simp at hie
    cases wf <;> simp [writeFile, hie, hne]

/-- Closed witness for C5 at a concrete state: a fresh path is created with
its parent directory, and a second write to the same path fails and leaves
the file list unchanged. -/
theorem C5_writeFile_witness :
    (filesAt ([] : List FSFile) ["config", "dkim", "k.pem"] = [] ∧
      (writeFile ⟨⟨[], []⟩, [], [], [], []⟩ ["config", "dkim", "k.pem"] "rsa2048-private-key" false).1 = Res.ok ()
      ∧ (writeFile ⟨⟨[], []⟩, [], [], [], []⟩ ["config", "dkim", "k.pem"] "rsa2048-private-key" false).2.files
          = [⟨["config", "dkim", "k.pem"], "rsa2048-private-key"⟩])
    ∧ (writeFile ⟨⟨[], []⟩, [], [], [], []⟩ ["config", "dkim", "k.pem"] "x" true).2.dirs
        = dirOf ["config", "dkim", "k.pem"] :: [] := by
  refine ⟨⟨by decide, ?_⟩, ?_⟩
  · exact (C5_writeFile_exclusive_mkdir_cleanup ⟨⟨[], []⟩, [], [], [], []⟩
      ["config", "dkim", "k.pem"] "rsa2048-private-key" false).2.2.2 (by decide) rfl
  · exact (C5_writeFile_exclusive_mkdir_cleanup ⟨⟨[], []⟩, [], [], [], []⟩
      ["config", "dkim", "k.pem"] "x" true).1

/-- C6 counterexample: at a concrete state, the key file DKIMAdd creates
for an RSA key is `["config", "dkim",
"sel1._domainkey.example.org.20240101T000000.rsa2048.privatekey.pkcs8.pem"]`.
That name differs from the spec pattern `specKeyFilePath` instantiated with
this key's algorithm tag, and it does not even end in `.privatekey.pem`,
which every instance of the spec pattern does (the source writes
`.privatekey.pkcs8.pem`), so no algorithm-tag reading makes it match. -/
theorem C6_counterexample_pkcs8_name :
    (DKIMAdd stOneDomain "example.org" "sel1" "rsa" "sha256" false false true [] "72h"
        "20240101T000000" false false false).2.files.map FSFile.path
      = [configDynamicDirPath (dkimKeyPath "sel1" "example.org" "20240101T000000" "rsa2048")]
    ∧ dkimKeyPath "sel1" "example.org" "20240101T000000" "rsa2048"
        ≠ specKeyFilePath "sel1" "example.org" "20240101T000000" "rsa2048"
    ∧ dkimKeyPath "sel1" "example.org" "20240101T000000" "rsa2048"
        = ["dkim", "sel1._domainkey.example.org.20240101T000000.rsa2048.privatekey.pkcs8.pem"]
    ∧ strEndsWith "sel1._domainkey.example.org.20240101T000000.rsa2048.privatekey.pkcs8.pem"
        ".privatekey.pem" = false
    ∧ strEndsWith (specKeyFileName "sel1" "example.org" "20240101T000000" "rsa2048")
        ".privatekey.pem" = true
    ∧ strEndsWith (specKeyFileName "sel1" "example.org" "20240101T000000" "ed25519")
        ".privatekey.pem" = true := by
  refine ⟨by decide, by decide, by decide, by decide, by decide, by decide⟩

/-- C6 (amended): every DKIM private key file created by DKIMAdd or by
MakeDomainConfig is placed under the `dkim/` directory (resolved in the
dynamic config directory) with a filename following the pattern
`<selector>._domainkey.<domain>.<generation-timestamp>.<algorithm-tag>.privatekey.pkcs8.pem`
— that is, with an extra `pkcs8` component before the final `pem`, unlike
the spec's stated pattern — where the algorithm tag is `rsa2048` or
`ed25519`. -/
theorem C6_amended_key_file_layout :
    (∀ (st : State) (dn sn alg hash : String) (hr br sl : Bool) (hdrs : List String)
        (lt ts : String) (kg wf io : Bool) (f : FSFile),
      f ∈ (DKIMAdd st dn sn alg hash hr br sl hdrs lt ts kg wf io).2.files → f ∉ st.files →
        f.path = configDynamicDirPath (dkimKeyPath sn dn ts "rsa2048")
        ∨ f.path = configDynamicDirPath (dkimKeyPath sn dn ts "ed25519"))
    ∧ (∀ (st : State) (dn hn an : String) (wm : Bool) (yr ts : String)
        (kg1 w1 kg2 w2 : Bool) (f : FSFile),
      f ∈ (MakeDomainConfig st dn hn an wm yr ts kg1 w1 kg2 w2).2.files → f ∉ st.files →
        f.path = configDynamicDirPath (dkimKeyPath (yr ++ "a") dn ts "rsa2048")
        ∨ f.path = configDynamicDirPath (dkimKeyPath (yr ++ "b") dn ts "rsa2048")) := by
  constructor
  · intro st dn sn alg hash hr br sl hdrs lt ts kg wf io f hmem hnot
    unfold DKIMAdd at hmem
    split at hmem
    · exact absurd hmem hnot
    · split at hmem
      · exact absurd hmem hnot
      · rename_i privKey kind heq
        have hkind : kind = "rsa2048" ∨ kind = "ed25519" := by
          by_cases h1 : alg = "rsa"
          · rw [if_pos h1] at heq
            cases kg with
            | false =>
              simp [MakeDKIMRSAKey] at heq
              exact Or.inl heq.2.symm
            | true => simp [MakeDKIMRSAKey] at heq
          · rw [if_neg h1] at heq
            by_cases h2 : alg = "ed25519"
            · rw [if_pos h2] at heq
              cases kg with
              | false =>
                simp [MakeDKIMEd25519Key] at heq
                exact Or.inr heq.2.symm
              | true => simp [MakeDKIMEd25519Key] at heq
            · rw [if_neg h2] at heq
              simp at heq
        split at hmem
        · exact absurd hmem hnot
        · split at hmem
          · exact absurd hmem hnot
          · simp only [] at hmem
            split at hmem
            · rename_i e hwf
              rw [writeFile_er_files _ _ _ _ _ hwf] at hmem
              exact absurd hmem hnot
            · rename_i hwf
              split at hmem
              · rename_i e hwd
                rw [WriteDynamicLocked_er_state _ _ _ _ hwd] at hmem
                rw [writeFile_ok_files _ _ _ _ hwf] at hmem
                simp only [removeFileAt, List.mem_filter, List.mem_cons] at hmem
                rcases hmem with ⟨hm, hp⟩
                rcases hm with hm | hm
                · subst hm
                  simp at hp
                · exact absurd hm hnot
              · rename_i hwd
                rw [WriteDynamicLocked_ok_state _ _ _ hwd] at hmem
                simp only at hmem
                rw [writeFile_ok_files _ _ _ _ hwf] at hmem
                rcases List.mem_cons.mp hmem with hm | hm
                · subst hm
                  rcases hkind with hk | hk <;> [exact Or.inl (by rw [hk]); exact Or.inr (by rw [hk])]
                · exact absurd hm hnot
  · intro st dn hn an wm yr ts kg1 w1 kg2 w2 f hmem hnot
    unfold MakeDomainConfig at hmem
    simp only [] at hmem
    split at hmem
    · exact absurd hmem hnot
    · split at hmem
      · rename_i e hw1
        rw [writeFile_er_files _ _ _ _ _ hw1] at hmem
        exact absurd hmem hnot
      · rename_i hw1
        have hf1 := writeFile_ok_files st _ _ w1 hw1
        split at hmem
        · simp only [removeFileAt, List.mem_filter] at hmem
          rw [hf1] at hmem
          rcases hmem with ⟨hm, hp⟩
          rcases List.mem_cons.mp hm with hm | hm
          · subst hm
            simp at hp
          · exact absurd hm hnot
        · split at hmem
          · rename_i e hw2
            rw [writeFile_er_files _ _ _ _ _ hw2] at hmem
            simp only [removeFileAt, List.mem_filter] at hmem
            rw [hf1] at hmem
            rcases hmem with ⟨hm, hp⟩
            rcases List.mem_cons.mp hm with hm | hm
            · subst hm
              simp at hp
            · exact absurd hm hnot
          · rename_i hw2
            rw [writeFile_ok_files _ _ _ _ hw2] at hmem
            rw [hf1] at hmem
            rcases List.mem_cons.mp hmem with hm | hm
            · subst hm
              exact Or.inr rfl
            · rcases List.mem_cons.mp hm with hm' | hm'
              · subst hm'
                exact Or.inl rfl
              · exact absurd hm' hnot

/-- Closed witness for the amended C6: at a concrete state the single file
DKIMAdd creates has the `privatekey.pkcs8.pem` layout under `dkim/`. -/
theorem C6_amended_witness :
    ⟨configDynamicDirPath (dkimKeyPath "sel1" "example.org" "20240101T000000" "rsa2048"),
        "rsa2048-private-key"⟩
      ∈ (DKIMAdd stOneDomain "example.org" "sel1" "rsa" "sha256" false false true [] "72h"
          "20240101T000000" false false false).2.files
    ∧ (FSFile.path ⟨configDynamicDirPath (dkimKeyPath "sel1" "example.org" "20240101T000000" "rsa2048"), "rsa2048-private-key"⟩
        = configDynamicDirPath (dkimKeyPath "sel1" "example.org" "20240101T000000" "rsa2048")
      ∨ FSFile.path ⟨configDynamicDirPath (dkimKeyPath "sel1" "example.org" "20240101T000000" "rsa2048"), "rsa2048-private-key"⟩
        = configDynamicDirPath (dkimKeyPath "sel1" "example.org" "20240101T000000" "ed25519")) := by
  refine ⟨by decide, ?_⟩
  exact C6_amended_key_file_layout.1 stOneDomain "example.org" "sel1" "rsa" "sha256"
    false false true [] "72h" "20240101T000000" false false false
    ⟨configDynamicDirPath (dkimKeyPath "sel1" "example.org" "20240101T000000" "rsa2048"),
      "rsa2048-private-key"⟩ (by decide) (by decide)

/-- C1 is contradicted by DomainAdd (code bug). At a concrete state, with a
fresh account name and a failure writing domains.conf after the key files
were created, the operation returns an error and the created key files are
removed — but the published snapshot is not the snapshot before the call:
the source's `nc := c` clones only the Domains map, so inserting the new
account wrote through the Accounts map shared with the published snapshot,
and that mutation survives the failed persist. The code's own comment
("If we fail, we leave no trace") promises otherwise. -/
theorem C1_domainAdd_mutates_published_on_write_failure :
    (DomainAdd state0 static0 false "example.org" "admin" "info" "2024" "20240101T000000"
        false false false false true).1
      = Res.er (Err.internal "writing domains.conf: io error")
    ∧ (DomainAdd state0 static0 false "example.org" "admin" "info" "2024" "20240101T000000"
        false false false false true).2.files = state0.files
    ∧ (DomainAdd state0 static0 false "example.org" "admin" "info" "2024" "20240101T000000"
        false false false false true).2.published ≠ state0.published
    ∧ alookup (DomainAdd state0 static0 false "example.org" "admin" "info" "2024"
        "20240101T000000" false false false false true).2.published.accounts "admin"
      = some (MakeAccountConfig ⟨"info", "example.org"⟩) := by
  refine ⟨by decide, by decide, by decide, by decide⟩

/-- C2 is contradicted in the alias pruning of AddressRemove (code bug).
With the account subscribed through `u@d` to two aliases of the same
domain, removing `u@d` succeeds and prunes alias `l2`, but publishes alias
`l1` still containing the removed member: the pruning loop re-reads each
domain from the pre-call snapshot, so the later alias's update discards the
earlier alias's pruning. The claim (and the function's own doc comment)
require the member to be removed from every alias. -/
theorem C2_addressRemove_alias_pruning_lost_update :
    (AddressRemove stTwoAliases ⟨"u", "d"⟩ false false false).1 = Res.ok ()
    ∧ (alookup (AddressRemove stTwoAliases ⟨"u", "d"⟩ false false false).2.published.domains
          "d").map (fun dm => alookup dm.aliases "l1")
      = some (some aliasL1)
    ∧ ⟨"u", "d"⟩ ∈ aliasL1.addresses
    ∧ (alookup (AddressRemove stTwoAliases ⟨"u", "d"⟩ false false false).2.published.domains
          "d").map (fun dm => alookup dm.aliases "l2")
      = some (some { aliasL2 with addresses := [⟨"w", "d"⟩] })
    ∧ (alookup (AddressRemove stTwoAliases ⟨"u", "d"⟩ false false false).2.published.accounts
          "acc").map Account.destinations
      = some [(⟨"v", "d"⟩, ⟨""⟩), (⟨"w", "d"⟩, ⟨""⟩)] := by
  refine ⟨by decide, by decide, by decide, by decide, by decide⟩

theorem DomainSave_er_state (st : State) (D : String) (f : Domain → Res Domain) (io : Bool)
    (e : Err) (h : (DomainSave st D f io).1 = Res.er e) : (DomainSave st D f io).2 = st := by
  unfold DomainSave at h ⊢
  cases hd : alookup st.published.domains D with
  | none => rfl
  | some dom =>
    cases hf : f dom with
    | er e' => simp [hd, hf]
    | ok dom' =>
      simp only [hd, hf] at h ⊢
      exact WriteDynamicLocked_er_state _ _ _ _ h

theorem DomainSave_ok_eq (st : State) (D : String) (f : Domain → Res Domain) (io : Bool)
    (dom dom' : Domain)
    (hd : alookup st.published.domains D = some dom)
    (hf : f dom = Res.ok dom')
    (hval : validDynamic { st.published with domains := ainsert st.published.domains D dom' } = true)
    (hio : io = false) :
    DomainSave st D f io = (Res.ok (), { st with published := withDomain st.published D dom' }) := by
  unfold DomainSave
  simp only [hd, hf]
  exact WriteDynamicLocked_eq_ok _ _ _ hval hio

theorem DomainSave_ok_inv (st : State) (D : String) (f : Domain → Res Domain) (io : Bool)
    (h : (DomainSave st D f io).1 = Res.ok ()) :
    ∃ dom dom', alookup st.published.domains D = some dom ∧ f dom = Res.ok dom'
      ∧ (DomainSave st D f io).2 =
          { st with published := { st.published with domains := ainsert st.published.domains D dom' } } := by
  unfold DomainSave at h ⊢
  cases hd : alookup st.published.domains D with
  | none => simp [hd] at h
  | some dom =>
    cases hf : f dom with
    | er e' => simp [hd, hf] at h
    | ok dom' =>
      simp only [hd, hf] at h ⊢
      exact ⟨dom, dom', rfl, hf, WriteDynamicLocked_ok_state _ _ _ h⟩

theorem validDynamic_spec (c : Dynamic) :
    validDynamic c = true ↔ ∀ p ∈ c.domains, ∀ q ∈ p.2.aliases, q.2.addresses ≠ [] := by
  simp [validDynamic, List.all_eq_true]

theorem validDynamic_ainsert (c : Dynamic) (D : String) (d' : Domain)
    (hc : validDynamic c = true) (hd : ∀ q ∈ d'.aliases, q.2.addresses ≠ []) :
    validDynamic { c with domains := ainsert c.domains D d' } = true := by
  rw [validDynamic_spec] at hc ⊢
  intro p hp q hq
  rcases mem_ainsert _ _ _ _ hp with h | h
  · subst h
    exact hd q hq
  · exact hc p h q hq

/-- C9: AliasUpdate on an existing alias changes only that alias's
PostPublic, ListMembers and AllowMsgFrom flags: on success the published
snapshot is the old one with exactly that update; the alias's member list,
every other alias of the domain, every other field of the domain, every
other domain, every account, and the filesystem are unchanged. -/
theorem C9_aliasUpdate_frame (st : State) (addr : AddrS) (alias' : Alias) (io : Bool)
    (d : Domain) (a : Alias)
    (hd : alookup st.published.domains addr.domain = some d)
    (ha : alookup d.aliases addr.localpart = some a)
    (hok : (AliasUpdate st addr alias' io).1 = Res.ok ()) :
    (AliasUpdate st addr alias' io).2.published =
      withDomain st.published addr.domain
        (withAlias d addr.localpart (aliasFlagsFrom a alias'))
    ∧ (AliasUpdate st addr alias' io).2.files = st.files
    ∧ (AliasUpdate st addr alias' io).2.published.accounts = st.published.accounts
    ∧ (∀ D', D' ≠ addr.domain →
        alookup (AliasUpdate st addr alias' io).2.published.domains D'
          = alookup st.published.domains D')
    ∧ (∃ d', alookup (AliasUpdate st addr alias' io).2.published.domains addr.domain = some d'
        ∧ (∀ lp', lp' ≠ addr.localpart → alookup d'.aliases lp' = alookup d.aliases lp')
        ∧ d'.dkim = d.dkim ∧ d'.dmarc = d.dmarc ∧ d'.tlsrpt = d.tlsrpt ∧ d'.mtasts = d.mtasts
        ∧ d'.disabled = d.disabled ∧ d'.clientSettingsDomain = d.clientSettingsDomain
        ∧ d'.localpartCatchallSeparatorsEffective = d.localpartCatchallSeparatorsEffective
        ∧ (∃ a2, alookup d'.aliases addr.localpart = some a2
            ∧ a2.addresses = a.addresses
            ∧ a2.postPublic = alias'.postPublic ∧ a2.listMembers = alias'.listMembers
            ∧ a2.allowMsgFrom = alias'.allowMsgFrom)) := by
  unfold AliasUpdate at hok ⊢
  obtain ⟨dom, dom', hd', hf, hst⟩ := DomainSave_ok_inv _ _ _ _ hok
  rw [hd] at hd'
  cases hd'
  rw [ha] at hf
  simp only [Res.ok.injEq] at hf
  subst hf
  rw [hst]
  refine ⟨rfl, rfl, rfl, ?_, ?_⟩
  · intro D' hD'
    exact alookup_ainsert_ne _ _ _ _ hD'
  · refine ⟨_, alookup_ainsert_self _ _ _, ?_, rfl, rfl, rfl, rfl, rfl, rfl, rfl, ?_⟩
    · intro lp' hlp'
      exact alookup_ainsert_ne _ _ _ _ hlp'
    · exact ⟨_, alookup_ainsert_self _ _ _, rfl, rfl, rfl, rfl⟩

/-- Closed witness for C9: a concrete AliasUpdate flipping the flags of
alias l1 of domain d succeeds and publishes the expected snapshot. -/
theorem C9_aliasUpdate_witness :
    (AliasUpdate stTwoAliases ⟨"l1", "d"⟩ ⟨[], true, true, true⟩ false).2.published =
      withDomain stTwoAliases.published "d"
        (withAlias domTwoAliases "l1" (aliasFlagsFrom aliasL1 ⟨[], true, true, true⟩)) :=
  (C9_aliasUpdate_frame stTwoAliases ⟨"l1", "d"⟩ ⟨[], true, true, true⟩ false domTwoAliases
    aliasL1 (by decide) (by decide) (by decide)).1

/-- C10: AliasAddressesAdd appends to the member list with no duplicate
check — re-adding an existing member succeeds (valid snapshot, persist
succeeding) and yields the old list with the address appended, so the list
contains the address at least twice — and a request-class rejection occurs
only when the supplied address list is empty or the alias does not exist
(a missing domain entailing a missing alias). -/
theorem C10_aliasAddressesAdd_no_dedup :
    (∀ (st : State) (addr : AddrS) (x : AddrS) (d : Domain) (al : Alias) (io : Bool),
      validDynamic st.published = true →
      alookup st.published.domains addr.domain = some d →
      alookup d.aliases addr.localpart = some al →
      x ∈ al.addresses → io = false →
      (AliasAddressesAdd st addr [x] io).1 = Res.ok ()
      ∧ (AliasAddressesAdd st addr [x] io).2.published =
          withDomain st.published addr.domain
            (withAlias d addr.localpart (aliasWithMembers al (al.addresses ++ [x])))
      ∧ 2 ≤ (al.addresses ++ [x]).count x)
    ∧ (∀ (st : State) (addr : AddrS) (addresses : List AddrS) (io : Bool) (m : String),
      (AliasAddressesAdd st addr addresses io).1 = Res.er (Err.request m) →
      addresses = [] ∨ ∀ d, alookup st.published.domains addr.domain = some d →
        alookup d.aliases addr.localpart = none) := by
  constructor
  · intro st addr x d al io hval hd ha hx hio
    have hmem : ∀ q ∈ (withAlias d addr.localpart (aliasWithMembers al (al.addresses ++ [x]))).aliases,
        q.2.addresses ≠ [] := by
      intro q hq
      rcases mem_ainsert _ _ _ _ hq with h | h
      · subst h
        simp [aliasWithMembers]
      · exact (validDynamic_spec st.published).mp hval _ (alookup_mem _ _ _ hd) q h
    have hval2 : validDynamic (withDomain st.published addr.domain
        (withAlias d addr.localpart (aliasWithMembers al (al.addresses ++ [x])))) = true :=
      validDynamic_ainsert _ _ _ hval hmem
    have hds := DomainSave_ok_eq st addr.domain
      (fun dm =>
        match alookup dm.aliases addr.localpart with
        | none => Res.er (Err.request "no such alias")
        | some alias' =>
          let a2 : Alias := { alias' with addresses := alias'.addresses ++ [x] }
          Res.ok { dm with aliases := ainsert dm.aliases addr.localpart a2 })
      io d (withAlias d addr.localpart (aliasWithMembers al (al.addresses ++ [x])))
      hd (by simp [ha, withAlias, aliasWithMembers]) hval2 hio
    refine ⟨?_, ?_, ?_⟩
    · show (AliasAddressesAdd st addr [x] io).1 = Res.ok ()
      unfold AliasAddressesAdd
      rw [if_neg (by simp), hds]
    · unfold AliasAddressesAdd
      rw [if_neg (by simp), hds]
    · have h1 : 0 < al.addresses.count x := List.count_pos_iff.mpr hx
      have h2 : List.count x [x] = 1 := by simp
      rw [List.count_append, h2]
      omega
  · intro st addr addresses io m h
    by_cases haddr : addresses = []
    · exact Or.inl haddr
    · right
      unfold AliasAddressesAdd at h
      rw [if_neg haddr] at h
      unfold DomainSave at h
      cases hd0 : alookup st.published.domains addr.domain with
      | none =>
        intro d hd
        exact absurd hd (by simp)
      | some dom =>
        rw [hd0] at h
        simp only [] at h
        cases ha0 : alookup dom.aliases addr.localpart with
        | none =>
          intro d hd
          injection hd with hdd
          subst hdd
          exact ha0
        | some al =>
          simp only [ha0] at h
          unfold WriteDynamicLocked at h
          split at h
          · simp at h
          · split at h <;> simp at h

/-- Closed witness for C10: re-adding the existing member `u@d` to alias
`l1` succeeds and the published member list contains `u@d` twice. -/
theorem C10_witness :
    (AliasAddressesAdd stTwoAliases ⟨"l1", "d"⟩ [⟨"u", "d"⟩] false).1 = Res.ok ()
    ∧ (AliasAddressesAdd stTwoAliases ⟨"l1", "d"⟩ [⟨"u", "d"⟩] false).2.published =
        withDomain stTwoAliases.published "d"
          (withAlias domTwoAliases "l1"
            (aliasWithMembers aliasL1 (aliasL1.addresses ++ [⟨"u", "d"⟩])))
    ∧ 2 ≤ (aliasL1.addresses ++ [(⟨"u", "d"⟩ : AddrS)]).count (⟨"u", "d"⟩ : AddrS) :=
  C10_aliasAddressesAdd_no_dedup.1 stTwoAliases (⟨"l1", "d"⟩ : AddrS) (⟨"u", "d"⟩ : AddrS)
    domTwoAliases aliasL1 false (by decide) (by decide) (by decide) (by decide) rfl

theorem str_append_data (a b : String) : (a ++ b).data = a.data ++ b.data := by
  cases a
  cases b
  rfl

theorem list_append_cancel {α : Type} (xs : List α) {ys zs : List α}
    (h : xs ++ ys = xs ++ zs) : ys = zs := by
  induction xs with
  | nil => simpa using h
  | cons a t ih =>
    simp only [List.cons_append, List.cons.injEq] at h
    exact ih h.2

theorem year_ab_ne (year : String) : year ++ "a" ≠ year ++ "b" := by
  intro h
  have h2 := congrArg String.data h
  simp only [str_append_data] at h2
  have h3 := list_append_cancel year.data h2
  simp at h3

theorem dkimKeyPath_ab_ne (year dn ts : String) :
    dkimKeyPath (year ++ "a") dn ts "rsa2048" ≠ dkimKeyPath (year ++ "b") dn ts "rsa2048" := by
  intro h
  simp only [dkimKeyPath, List.cons.injEq, and_true] at h
  have h2 := congrArg String.data h.2
  simp only [str_append_data, List.append_assoc] at h2
  have h3 := list_append_cancel year.data h2
  simp at h3

theorem filesAt_cons_ne (f : FSFile) (fs : List FSFile) (p : List String) (h : f.path ≠ p) :
    filesAt (f :: fs) p = filesAt fs p := by
  simp [filesAt, h]

theorem writeFile_ok_eq (st : State) (p : List String) (d : String)
    (hp : filesAt st.files p = []) :
    writeFile st p d false =
      (Res.ok (), { st with files := ⟨p, d⟩ :: st.files, dirs := dirOf p :: st.dirs }) := by
  unfold writeFile
  simp [hp]

theorem MakeDomainConfig_ok_eq (st : State) (dn hn an : String) (wm : Bool) (year ts : String)
    (hp1 : filesAt st.files (configDynamicDirPath (dkimKeyPath (year ++ "a") dn ts "rsa2048")) = [])
    (hp2 : filesAt st.files (configDynamicDirPath (dkimKeyPath (year ++ "b") dn ts "rsa2048")) = []) :
    MakeDomainConfig st dn hn an wm year ts false false false false =
      (Res.ok (makeConfDomain dn hn an wm year ts,
        [configDynamicDirPath (dkimKeyPath (year ++ "a") dn ts "rsa2048"),
         configDynamicDirPath (dkimKeyPath (year ++ "b") dn ts "rsa2048")]),
       { st with
          files := ⟨configDynamicDirPath (dkimKeyPath (year ++ "b") dn ts "rsa2048"), "rsa2048-private-key"⟩
            :: ⟨configDynamicDirPath (dkimKeyPath (year ++ "a") dn ts "rsa2048"), "rsa2048-private-key"⟩
            :: st.files,
          dirs := dirOf (configDynamicDirPath (dkimKeyPath (year ++ "b") dn ts "rsa2048"))
            :: dirOf (configDynamicDirPath (dkimKeyPath (year ++ "a") dn ts "rsa2048"))
            :: st.dirs }) := by
  have hne : configDynamicDirPath (dkimKeyPath (year ++ "a") dn ts "rsa2048")
      ≠ configDynamicDirPath (dkimKeyPath (year ++ "b") dn ts "rsa2048") := by
    intro h
    simp only [configDynamicDirPath, configDirPath, List.cons.injEq, true_and] at h
    exact dkimKeyPath_ab_ne year dn ts h
  have e1 := writeFile_ok_eq st
    (configDynamicDirPath (dkimKeyPath (year ++ "a") dn ts "rsa2048")) "rsa2048-private-key" hp1
  have hfb : filesAt
      ({ st with
          files := ⟨configDynamicDirPath (dkimKeyPath (year ++ "a") dn ts "rsa2048"), "rsa2048-private-key"⟩ :: st.files,
          dirs := dirOf (configDynamicDirPath (dkimKeyPath (year ++ "a") dn ts "rsa2048")) :: st.dirs } : State).files
      (configDynamicDirPath (dkimKeyPath (year ++ "b") dn ts "rsa2048")) = [] := by
    rw [filesAt_cons_ne _ _ _ hne]
    exact hp2
  have e2 := writeFile_ok_eq
    ({ st with
        files := ⟨configDynamicDirPath (dkimKeyPath (year ++ "a") dn ts "rsa2048"), "rsa2048-private-key"⟩ :: st.files,
        dirs := dirOf (configDynamicDirPath (dkimKeyPath (year ++ "a") dn ts "rsa2048")) :: st.dirs } : State)
    (configDynamicDirPath (dkimKeyPath (year ++ "b") dn ts "rsa2048")) "rsa2048-private-key" hfb
  have hg : MakeDKIMRSAKey false = Res.ok "rsa2048-private-key" := rfl
  simp only [MakeDomainConfig, hg, e1, e2]

/-- C4: on a fresh domain, fresh nonempty account name and nonempty
localpart, DomainAdd succeeds and publishes exactly two RSA-2048 selectors
named `<year>a`/`<year>b` (fresh key files on disk, tagged rsa2048), a
signing list containing `<year>a` only, and the account with destination
`<localpart>@<domain>`; calling DomainAdd again for the same domain — with
any localpart and any oracle outcomes — fails with the request error
"domain already present" and returns the state (snapshot and filesystem)
completely unchanged. -/
theorem C4_domainAdd_lifecycle (st : State) (static : Static) (dn an lp year ts : String)
    (hdom : alookup st.published.domains dn = none)
    (hacc : alookup st.published.accounts an = none)
    (hlp : lp ≠ "") (han : an ≠ "")
    (hval : validDynamic st.published = true)
    (hp1 : filesAt st.files (configDynamicDirPath (dkimKeyPath (year ++ "a") dn ts "rsa2048")) = [])
    (hp2 : filesAt st.files (configDynamicDirPath (dkimKeyPath (year ++ "b") dn ts "rsa2048")) = []) :
    ∃ st1, DomainAdd st static false dn an lp year ts false false false false false = (Res.ok (), st1)
      ∧ (∃ d, alookup st1.published.domains dn = some d
          ∧ d.dkim.sign = [year ++ "a"]
          ∧ d.dkim.selectors.length = 2
          ∧ alookup d.dkim.selectors (year ++ "a") = some (makeSelector (year ++ "a") dn ts)
          ∧ alookup d.dkim.selectors (year ++ "b") = some (makeSelector (year ++ "b") dn ts)
          ∧ ⟨configDynamicDirPath (dkimKeyPath (year ++ "a") dn ts "rsa2048"), "rsa2048-private-key"⟩ ∈ st1.files
          ∧ ⟨configDynamicDirPath (dkimKeyPath (year ++ "b") dn ts "rsa2048"), "rsa2048-private-key"⟩ ∈ st1.files)
      ∧ (∃ acc, alookup st1.published.accounts an = some acc
          ∧ alookup acc.destinations ⟨lp, dn⟩ = some ⟨""⟩)
      ∧ (∀ kg1 w1 kg2 w2 io2 lp2,
          DomainAdd st1 static false dn an lp2 year ts kg1 w1 kg2 w2 io2
            = (Res.er (Err.request "domain already present"), st1)) := by
  have hmk := MakeDomainConfig_ok_eq st dn static.hostname an static.mtastsListener year ts hp1 hp2
  have hvalnc : validDynamic
      { domains := ainsert st.published.domains dn
          { makeConfDomain dn static.hostname an static.mtastsListener year ts with disabled := false },
        accounts := ainsert st.published.accounts an (MakeAccountConfig ⟨lp, dn⟩) } = true := by
    rw [validDynamic_spec]
    intro p hp q hq
    rcases mem_ainsert _ _ _ _ hp with h | h
    · subst h
      simp [makeConfDomain] at hq
    · exact (validDynamic_spec st.published).mp hval p h q hq
  have hba : ¬(year ++ "b" = year ++ "a") := fun h => year_ab_ne year h.symm
  have hrun : DomainAdd st static false dn an lp year ts false false false false false =
      (Res.ok (),
        { published :=
            { domains := ainsert st.published.domains dn
                { makeConfDomain dn static.hostname an static.mtastsListener year ts with disabled := false },
              accounts := ainsert st.published.accounts an (MakeAccountConfig ⟨lp, dn⟩) },
          files := ⟨configDynamicDirPath (dkimKeyPath (year ++ "b") dn ts "rsa2048"), "rsa2048-private-key"⟩
            :: ⟨configDynamicDirPath (dkimKeyPath (year ++ "a") dn ts "rsa2048"), "rsa2048-private-key"⟩
            :: st.files,
          dirs := dirOf (configDynamicDirPath (dkimKeyPath (year ++ "b") dn ts "rsa2048"))
            :: dirOf (configDynamicDirPath (dkimKeyPath (year ++ "a") dn ts "rsa2048"))
            :: st.dirs,
          queueMsgs := st.queueMsgs, tlsPubKeys := st.tlsPubKeys }) := by
    simp only [DomainAdd, hdom, hacc, hmk, Option.isSome_none, Bool.false_eq_true, if_false,
      Option.isSome_some]
    rw [if_neg (by simp), if_neg (by simp [hlp]), if_neg han, if_pos (by simp)]
    rw [WriteDynamicLocked_eq_ok _ _ _ hvalnc rfl]
  refine ⟨_, hrun, ?_, ?_, ?_⟩
  · refine ⟨_, alookup_ainsert_self _ _ _, rfl, ?_, ?_, ?_, ?_, ?_⟩
    · simp [makeConfDomain, ainsert, hba]
    · simp [makeConfDomain, ainsert, alookup, hba, year_ab_ne year]
    · simp [makeConfDomain, ainsert, alookup, hba, year_ab_ne year]
    · simp
    · simp
  · exact ⟨_, alookup_ainsert_self _ _ _, by simp [MakeAccountConfig, alookup]⟩
  · intro kg1 w1 kg2 w2 io2 lp2
    simp only [DomainAdd, alookup_ainsert_self, Option.isSome_some, if_true, ite_true]

/-- Closed witness for C4: the domain lifecycle scenario on the empty
configuration: first DomainAdd succeeds, repeating it fails with "domain
already present" and changes nothing. -/
theorem C4_witness :
    ∃ st1, DomainAdd state0 static0 false "example.org" "admin" "info" "2024" "20240101T000000"
        false false false false false = (Res.ok (), st1)
      ∧ DomainAdd st1 static0 false "example.org" "admin" "info" "2024" "20240101T000000"
          false false false false false = (Res.er (Err.request "domain already present"), st1) := by
  obtain ⟨st1, h1, h2, h3, h4⟩ := C4_domainAdd_lifecycle state0 static0 "example.org" "admin"
    "info" "2024" "20240101T000000" (by decide) (by decide) (by decide) (by decide) (by decide)
    (by decide) (by decide)
  exact ⟨st1, h1, h4 false false false false false "info"⟩

theorem length_filter_lt_of_mem {α : Type} (l : List α) (p : α → Bool) (x : α) (hx : x ∈ l)
    (hpx : p x = false) : (l.filter p).length < l.length := by
  induction l with
  | nil => simp at hx
  | cons a t ih =>
    rcases List.mem_cons.mp hx with h | h
    · subst h
      rw [List.filter_cons, if_neg (by simp [hpx])]
      have := List.length_filter_le p t
      simp only [List.length_cons]
      omega
    · cases hpa : p a
      · rw [List.filter_cons, if_neg (by simp [hpa])]
        have := List.length_filter_le p t
        simp only [List.length_cons]
        omega
      · rw [List.filter_cons, if_pos (by simp [hpa])]
        simp only [List.length_cons]
        have := ih h
        omega

theorem pruneAliases_skip (c : Dynamic) (address : AddrS) (refs : List AliasRef)
    (doms : List (String × Domain)) (h : ∀ aa ∈ refs, aa.subscriptionAddress ≠ address) :
    pruneAliases c address refs doms = Res.ok doms := by
  induction refs generalizing doms with
  | nil => rfl
  | cons aa rest ih =>
    have haa := h aa (by simp)
    unfold pruneAliases
    rw [if_pos haa]
    exact ih _ (fun x hx => h x (by simp [hx]))

theorem queueCheck_catchall_rejects (c : Dynamic) (address : AddrS) (ad : ADEntry)
    (msgs : List QMsg) (haddr : address.localpart = "")
    (hall : ∀ m ∈ msgs, (alookup c.domains m.senderDomain).isSome = true)
    (hex : ∃ m ∈ msgs, catchallSenderUncovered c ad m = true) :
    ∃ sa, queueCheck c address ad msgs = Res.er (drainCatchallErr sa) := by
  induction msgs with
  | nil => simp at hex
  | cons m rest ih =>
    obtain ⟨dc, hdc⟩ := Option.isSome_iff_exists.mp (hall m (by simp))
    cases hx : alookup (accountDestinations c)
        ⟨canonicalLocalpart m.senderLocalpart dc, m.senderDomain⟩ with
    | none =>
      refine ⟨⟨canonicalLocalpart m.senderLocalpart dc, m.senderDomain⟩, ?_⟩
      simp [queueCheck, hdc, haddr, hx]
    | some xad =>
      by_cases hacct : xad.account = ad.account
      · have hex2 : ∃ m0 ∈ rest, catchallSenderUncovered c ad m0 = true := by
          rcases hex with ⟨m0, hm0, ht⟩
          rcases List.mem_cons.mp hm0 with h0 | h0
          · subst h0
            simp only [catchallSenderUncovered, hdc, hx, hacct] at ht
            simp at ht
          · exact ⟨m0, h0, ht⟩
        obtain ⟨sa, hsa⟩ := ih (fun m0 hm0 => hall m0 (by simp [hm0])) hex2
        refine ⟨sa, ?_⟩
        simp [queueCheck, hdc, haddr, hx, hacct, hsa]
      · refine ⟨⟨canonicalLocalpart m.senderLocalpart dc, m.senderDomain⟩, ?_⟩
        simp [queueCheck, hdc, haddr, hx, hacct]

theorem queueCheck_plain_rejects (c : Dynamic) (address : AddrS) (ad : ADEntry)
    (msgs : List QMsg) (haddr : ¬address.localpart = "")
    (hall : ∀ m ∈ msgs, (alookup c.domains m.senderDomain).isSome = true)
    (hex : ∃ m ∈ msgs, plainSenderDependent c ad address m = true) :
    queueCheck c address ad msgs = Res.er (drainPlainErr address) := by
  induction msgs with
  | nil => simp at hex
  | cons m rest ih =>
    obtain ⟨dc, hdc⟩ := Option.isSome_iff_exists.mp (hall m (by simp))
    have step : queueCheck c address ad (m :: rest) =
        (if (match alookup (accountDestinations c) ⟨"", m.senderDomain⟩ with
             | some xad => decide (xad.account = ad.account)
             | none => false) = false
            ∧ (⟨canonicalLocalpart m.senderLocalpart dc, m.senderDomain⟩ : AddrS) = address
         then Res.er (drainPlainErr ⟨canonicalLocalpart m.senderLocalpart dc, m.senderDomain⟩)
         else queueCheck c address ad rest) := by
      conv_lhs => rw [queueCheck]
      simp only [hdc]
      rw [if_neg haddr]
    by_cases htrip : plainSenderDependent c ad address m = true
    · have htrip2 := htrip
      simp only [plainSenderDependent, hdc, decide_eq_true_eq] at htrip2
      obtain ⟨hco, hsa⟩ := htrip2
      rw [step, if_pos (And.intro hco hsa), hsa]
    · have hex2 : ∃ m0 ∈ rest, plainSenderDependent c ad address m0 = true := by
        rcases hex with ⟨m0, hm0, ht⟩
        rcases List.mem_cons.mp hm0 with h0 | h0
        · subst h0
          exact absurd ht htrip
        · exact ⟨m0, h0, ht⟩
      have hrest := ih (fun m0 hm0 => hall m0 (by simp [hm0])) hex2
      have htrip2 : ¬((match alookup (accountDestinations c) ⟨"", m.senderDomain⟩ with
          | some xad => decide (xad.account = ad.account)
          | none => false) = false
          ∧ (⟨canonicalLocalpart m.senderLocalpart dc, m.senderDomain⟩ : AddrS) = address) := by
        intro hc
        apply htrip
        simp only [plainSenderDependent, hdc, decide_eq_true_eq]
        exact hc
      rw [step, if_neg htrip2, hrest]

theorem AddressRemove_queue_reject (st : State) (address : AddrS) (ad : ADEntry) (a : Account)
    (io : Bool) (e : Err)
    (h1 : alookup (accountDestinations st.published) address = some ad)
    (h2 : alookup st.published.accounts ad.account = some a)
    (h3 : address ∈ a.destinations.map Prod.fst)
    (h4 : (alookup st.published.domains address.domain).isSome = true)
    (h5 : st.tlsPubKeys.filter (fun t => t.account = ad.account) = [])
    (h6 : ∀ aa ∈ a.aliases, aa.subscriptionAddress ≠ address)
    (hq : queueCheck st.published address ad
        (st.queueMsgs.filter (fun m => m.account = ad.account)) = Res.er e) :
    AddressRemove st address false false io = (Res.er e, st) := by
  obtain ⟨x, hx, hpx⟩ := List.mem_map.mp h3
  have hlt : (a.destinations.filter (fun p => p.1 ≠ address)).length < a.destinations.length :=
    length_filter_lt_of_mem _ _ x hx (by simp [hpx])
  obtain ⟨dc, hdc⟩ := Option.isSome_iff_exists.mp h4
  unfold AddressRemove
  rw [h1]
  simp only []
  rw [h2]
  simp only []
  rw [if_neg (by omega)]
  rw [hdc]
  simp only []
  rw [if_neg (by simp)]
  rw [h5]
  simp only [List.find?_nil]
  rw [pruneAliases_skip _ _ _ _ h6]
  simp only []
  rw [if_neg (by simp)]
  rw [hq]

/-- C8: AddressRemove is guarded by the outbound queue. Removing the
catchall `@X` is rejected with the drain-the-queue request error, leaving
the whole state unchanged, whenever some queued message of the owning
account has a canonicalized sender not explicitly configured as a
destination of that account; symmetrically, removing a plain address whose
canonicalized form matches a queued sender is rejected when no catchall of
the sender's domain belongs to the account. (The earlier validation steps —
the address resolving to the account, no TLS-public-key reference, no alias
membership through the address — are assumed to pass.) -/
theorem C8_addressRemove_queue_guard :
    (∀ (st : State) (X : String) (ad : ADEntry) (a : Account) (io : Bool),
      alookup (accountDestinations st.published) ⟨"", X⟩ = some ad →
      alookup st.published.accounts ad.account = some a →
      (⟨"", X⟩ : AddrS) ∈ a.destinations.map Prod.fst →
      (alookup st.published.domains X).isSome = true →
      st.tlsPubKeys.filter (fun t => t.account = ad.account) = [] →
      (∀ aa ∈ a.aliases, aa.subscriptionAddress ≠ (⟨"", X⟩ : AddrS)) →
      (∀ m ∈ st.queueMsgs.filter (fun m => m.account = ad.account),
        (alookup st.published.domains m.senderDomain).isSome = true) →
      (∃ m ∈ st.queueMsgs.filter (fun m => m.account = ad.account),
        catchallSenderUncovered st.published ad m = true) →
      ∃ sa, AddressRemove st ⟨"", X⟩ false false io = (Res.er (drainCatchallErr sa), st))
    ∧ (∀ (st : State) (address : AddrS) (ad : ADEntry) (a : Account) (io : Bool),
      address.localpart ≠ "" →
      alookup (accountDestinations st.published) address = some ad →
      alookup st.published.accounts ad.account = some a →
      address ∈ a.destinations.map Prod.fst →
      (alookup st.published.domains address.domain).isSome = true →
      st.tlsPubKeys.filter (fun t => t.account = ad.account) = [] →
      (∀ aa ∈ a.aliases, aa.subscriptionAddress ≠ address) →
      (∀ m ∈ st.queueMsgs.filter (fun m => m.account = ad.account),
        (alookup st.published.domains m.senderDomain).isSome = true) →
      (∃ m ∈ st.queueMsgs.filter (fun m => m.account = ad.account),
        plainSenderDependent st.published ad address m = true) →
      AddressRemove st address false false io = (Res.er (drainPlainErr address), st)) := by
  constructor
  · intro st X ad a io h1 h2 h3 h4 h5 h6 h7 h8
    obtain ⟨sa, hsa⟩ := queueCheck_catchall_rejects st.published ⟨"", X⟩ ad
      (st.queueMsgs.filter (fun m => m.account = ad.account)) rfl h7 h8
    exact ⟨sa, AddressRemove_queue_reject st ⟨"", X⟩ ad a io _ h1 h2 h3 h4 h5 h6 hsa⟩
  · intro st address ad a io hlp h1 h2 h3 h4 h5 h6 h7 h8
    have hsa := queueCheck_plain_rejects st.published address ad
      (st.queueMsgs.filter (fun m => m.account = ad.account)) hlp h7 h8
    exact AddressRemove_queue_reject st address ad a io _ h1 h2 h3 h4 h5 h6 hsa

/-- Closed witness for C8: removing the catchall `@x.org` (queued sender
`s@x.org` covered only by it) fails with the catchall drain error; removing
the plain `p@y.org` (queued sender `p@y.org`, no catchall) fails with the
plain drain error; both leave the state untouched. -/
theorem C8_witness :
    (∃ sa, AddressRemove stQCatchall ⟨"", "x.org"⟩ false false false
        = (Res.er (drainCatchallErr sa), stQCatchall))
    ∧ AddressRemove stQPlain ⟨"p", "y.org"⟩ false false false
        = (Res.er (drainPlainErr ⟨"p", "y.org"⟩), stQPlain) := by
  constructor
  · exact C8_addressRemove_queue_guard.1 stQCatchall "x.org" ⟨"acc", ""⟩
      ⟨"x.org", [(⟨"", "x.org"⟩, ⟨""⟩)], [], [], "", false⟩ false (by decide) (by decide)
      (by decide) (by decide) (by decide) (by decide) (by decide) (by decide)
  · exact C8_addressRemove_queue_guard.2 stQPlain ⟨"p", "y.org"⟩ ⟨"acc2", "p"⟩
      ⟨"y.org", [(⟨"p", "y.org"⟩, ⟨""⟩)], [], [], "", false⟩ false (by decide) (by decide)
      (by decide) (by decide) (by decide) (by decide) (by decide) (by decide) (by decide)

theorem configDirPath_inj (p q : List String) (h : configDirPath p = configDirPath q) :
    p = q := by
  simpa [configDirPath] using h

theorem dropLast_cons_append_getLastD (as : List String) :
    ∀ a, (a :: as).dropLast ++ [as.getLastD a] = a :: as := by
  induction as with
  | nil =>
    intro a
    rfl
  | cons b t ih =>
    intro a
    rw [List.getLastD_cons]
    show (a :: (b :: t).dropLast) ++ [t.getLastD b] = a :: b :: t
    rw [List.cons_append, ih b]

theorem dropLast_append_baseOf (p : List String) (hp : p ≠ []) :
    p.dropLast ++ [baseOf p] = p := by
  cases p with
  | nil => simp at hp
  | cons a as =>
    show (a :: as).dropLast ++ [(a :: as).getLastD ""] = a :: as
    rw [List.getLastD_cons]
    exact dropLast_cons_append_getLastD as a

theorem retiredPath_ne (p : List String) : retiredPath p ≠ p := by
  intro h
  have hl := congrArg List.length h
  simp [retiredPath, dirOf] at hl
  omega

theorem retiredPath_inj (p q : List String) (hp : p ≠ []) (hq : q ≠ [])
    (h : retiredPath p = retiredPath q) : p = q := by
  have hlen : p.length = q.length := by
    have hl := congrArg List.length h
    simp [retiredPath, dirOf] at hl
    have hp1 : 1 ≤ p.length := List.length_pos.mpr hp
    have hq1 : 1 ≤ q.length := List.length_pos.mpr hq
    omega
  have hdl : p.dropLast.length = q.dropLast.length := by
    simp [hlen]
  obtain ⟨h1, h2⟩ := List.append_inj h (by simpa [retiredPath, dirOf] using hdl)
  simp only [List.cons.injEq] at h2
  calc p = p.dropLast ++ [baseOf p] := (dropLast_append_baseOf p hp).symm
    _ = q.dropLast ++ [baseOf q] := by
        rw [show p.dropLast = q.dropLast from by simpa [retiredPath, dirOf] using h1,
          h2.2.1]
    _ = q := dropLast_append_baseOf q hq

theorem filesAt_cons (f : FSFile) (t : List FSFile) (x : List String) :
    filesAt (f :: t) x = if f.path = x then f :: filesAt t x else filesAt t x := by
  by_cases h : f.path = x <;> simp [filesAt, h]

theorem removeFileAt_cons (f : FSFile) (t : List FSFile) (p : List String) :
    removeFileAt (f :: t) p = if f.path = p then removeFileAt t p else f :: removeFileAt t p := by
  by_cases h : f.path = p <;> simp [removeFileAt, h]

theorem filesAt_removeFileAt_self (files : List FSFile) (p : List String) :
    filesAt (removeFileAt files p) p = [] := by
  induction files with
  | nil => rfl
  | cons f t ih =>
    rw [removeFileAt_cons]
    by_cases hf : f.path = p
    · rw [if_pos hf]
      exact ih
    · rw [if_neg hf, filesAt_cons, if_neg hf]
      exact ih

theorem filesAt_removeFileAt_ne (files : List FSFile) (p x : List String) (h : x ≠ p) :
    filesAt (removeFileAt files p) x = filesAt files x := by
  induction files with
  | nil => rfl
  | cons f t ih =>
    rw [removeFileAt_cons]
    by_cases hf : f.path = p
    · have hfx : ¬f.path = x := by
        rw [hf]
        exact fun hc => h hc.symm
      rw [if_pos hf, filesAt_cons, if_neg hfx]
      exact ih
    · rw [if_neg hf, filesAt_cons, filesAt_cons]
      by_cases hfx : f.path = x
      · rw [if_pos hfx, if_pos hfx, ih]
      · rw [if_neg hfx, if_neg hfx]
        exact ih

theorem filesAt_cons_self (fs : List FSFile) (p : List String) (c : String) :
    filesAt (⟨p, c⟩ :: fs) p = ⟨p, c⟩ :: filesAt fs p := by
  simp [filesAt]

theorem moveAwayOne_eq (used : List (List String)) (st : State) (sel : Selector) :
    moveAwayOne used st sel =
      if sel.privateKeyFile = [] ∨ sel.privateKeyFile ∈ used then st
      else if (filesAt st.files (configDirPath (retiredPath sel.privateKeyFile))).isEmpty = false
        then st
      else
        match (filesAt st.files (configDirPath sel.privateKeyFile)).head? with
        | none => { st with dirs := dirOf (configDirPath (retiredPath sel.privateKeyFile)) :: st.dirs }
        | some f =>
          { st with
              files := ⟨configDirPath (retiredPath sel.privateKeyFile), f.content⟩
                :: removeFileAt st.files (configDirPath sel.privateKeyFile),
              dirs := dirOf (configDirPath (retiredPath sel.privateKeyFile)) :: st.dirs } := rfl

theorem moveAwayOne_published (used : List (List String)) (st : State) (sel : Selector) :
    (moveAwayOne used st sel).published = st.published := by
  rw [moveAwayOne_eq]
  split
  · rfl
  · split
    · rfl
    · split <;> rfl

theorem moveAwayKeys_published (used : List (List String)) (st : State)
    (sels : List (String × Selector)) :
    (moveAwayKeys used st sels).published = st.published := by
  induction sels generalizing st with
  | nil => rfl
  | cons s rest ih =>
    obtain ⟨n, sel⟩ := s
    show (moveAwayKeys used (moveAwayOne used st sel) rest).published = st.published
    rw [ih (moveAwayOne used st sel), moveAwayOne_published]

theorem moveAwayOne_skip (used : List (List String)) (st : State) (sel : Selector)
    (h : sel.privateKeyFile = [] ∨ sel.privateKeyFile ∈ used) :
    moveAwayOne used st sel = st := by
  rw [moveAwayOne_eq, if_pos h]

theorem moveAwayOne_refuse (used : List (List String)) (st : State) (sel : Selector)
    (h1 : ¬(sel.privateKeyFile = [] ∨ sel.privateKeyFile ∈ used))
    (h2 : filesAt st.files (configDirPath (retiredPath sel.privateKeyFile)) ≠ []) :
    moveAwayOne used st sel = st := by
  rw [moveAwayOne_eq, if_neg h1, if_pos (by simpa [List.isEmpty_iff] using h2)]

theorem moveAwayOne_move (used : List (List String)) (st : State) (sel : Selector)
    (f : FSFile)
    (h1 : ¬(sel.privateKeyFile = [] ∨ sel.privateKeyFile ∈ used))
    (h2 : filesAt st.files (configDirPath (retiredPath sel.privateKeyFile)) = [])
    (h3 : (filesAt st.files (configDirPath sel.privateKeyFile)).head? = some f) :
    (moveAwayOne used st sel).files =
      ⟨configDirPath (retiredPath sel.privateKeyFile), f.content⟩
        :: removeFileAt st.files (configDirPath sel.privateKeyFile) := by
  rw [moveAwayOne_eq, if_neg h1, if_neg (by simp [h2]), h3]

theorem moveAwayOne_move_none (used : List (List String)) (st : State) (sel : Selector)
    (h1 : ¬(sel.privateKeyFile = [] ∨ sel.privateKeyFile ∈ used))
    (h2 : filesAt st.files (configDirPath (retiredPath sel.privateKeyFile)) = [])
    (h3 : (filesAt st.files (configDirPath sel.privateKeyFile)).head? = none) :
    (moveAwayOne used st sel).files = st.files := by
  rw [moveAwayOne_eq, if_neg h1, if_neg (by simp [h2]), h3]

theorem moveAwayOne_filesAt_frame (used : List (List String)) (st : State) (sel : Selector)
    (x : List String)
    (h1 : x ≠ configDirPath sel.privateKeyFile)
    (h2 : x ≠ configDirPath (retiredPath sel.privateKeyFile)) :
    filesAt (moveAwayOne used st sel).files x = filesAt st.files x := by
  rw [moveAwayOne_eq]
  split
  · rfl
  · split
    · rfl
    · split
      · rfl
      · rename_i f hf
        show filesAt (⟨configDirPath (retiredPath sel.privateKeyFile), f.content⟩
            :: removeFileAt st.files (configDirPath sel.privateKeyFile)) x = filesAt st.files x
        rw [filesAt_cons, if_neg (fun hc => h2 hc.symm)]
        exact filesAt_removeFileAt_ne _ _ _ h1

theorem moveAwayKeys_filesAt_frame (used : List (List String)) (st : State)
    (sels : List (String × Selector)) (x : List String)
    (h : ∀ q ∈ sels, x ≠ configDirPath q.2.privateKeyFile
      ∧ x ≠ configDirPath (retiredPath q.2.privateKeyFile)) :
    filesAt (moveAwayKeys used st sels).files x = filesAt st.files x := by
  induction sels generalizing st with
  | nil => rfl
  | cons s rest ih =>
    obtain ⟨n, sel⟩ := s
    show filesAt (moveAwayKeys used (moveAwayOne used st sel) rest).files x = filesAt st.files x
    rw [ih (moveAwayOne used st sel) (fun q hq => h q (by simp [hq]))]
    exact moveAwayOne_filesAt_frame used st sel x (h (n, sel) (by simp)).1
      (h (n, sel) (by simp)).2

theorem sel_path_disjoint (p0 pq : List String) (hne : pq ≠ p0) (h0 : p0 ≠ []) (hqn : pq ≠ [])
    (hd2a : retiredPath pq ≠ p0) (hd2b : retiredPath p0 ≠ pq) :
    (configDirPath p0 ≠ configDirPath pq
      ∧ configDirPath p0 ≠ configDirPath (retiredPath pq))
    ∧ (configDirPath (retiredPath p0) ≠ configDirPath pq
      ∧ configDirPath (retiredPath p0) ≠ configDirPath (retiredPath pq)) := by
  refine ⟨⟨?_, ?_⟩, ?_, ?_⟩ <;> intro hc
  · exact hne (configDirPath_inj _ _ hc).symm
  · exact hd2a (configDirPath_inj _ _ hc).symm
  · exact hd2b (configDirPath_inj _ _ hc)
  · exact hne (retiredPath_inj p0 pq h0 hqn (configDirPath_inj _ _ hc)).symm

theorem moveAwayKeys_sel_skip (used : List (List String)) (st : State)
    (sels : List (String × Selector)) (n0 : String) (sel0 : Selector)
    (hmem : (n0, sel0) ∈ sels)
    (Hd1 : (sels.map (fun q => q.2.privateKeyFile)).Pairwise Ne)
    (Hd3 : ∀ q ∈ sels, q.2.privateKeyFile ≠ [])
    (Hd2 : ∀ q ∈ sels, ∀ r ∈ sels, retiredPath q.2.privateKeyFile ≠ r.2.privateKeyFile)
    (hused : sel0.privateKeyFile ∈ used) :
    filesAt (moveAwayKeys used st sels).files (configDirPath sel0.privateKeyFile)
      = filesAt st.files (configDirPath sel0.privateKeyFile)
    ∧ filesAt (moveAwayKeys used st sels).files (configDirPath (retiredPath sel0.privateKeyFile))
      = filesAt st.files (configDirPath (retiredPath sel0.privateKeyFile)) := by
  induction sels generalizing st with
  | nil => simp at hmem
  | cons s rest ih =>
    obtain ⟨n, sel⟩ := s
    have hstep : moveAwayKeys used st ((n, sel) :: rest) =
        moveAwayKeys used (moveAwayOne used st sel) rest := rfl
    have hpw := List.pairwise_cons.mp Hd1
    rcases List.mem_cons.mp hmem with hiq | hmem2
    · injection hiq with hn hsel
      subst hn
      subst hsel
      have hcond : ∀ q ∈ rest,
          (configDirPath sel0.privateKeyFile ≠ configDirPath q.2.privateKeyFile
            ∧ configDirPath sel0.privateKeyFile ≠ configDirPath (retiredPath q.2.privateKeyFile))
          ∧ (configDirPath (retiredPath sel0.privateKeyFile) ≠ configDirPath q.2.privateKeyFile
            ∧ configDirPath (retiredPath sel0.privateKeyFile)
                ≠ configDirPath (retiredPath q.2.privateKeyFile)) := by
        intro q hq
        exact sel_path_disjoint sel0.privateKeyFile q.2.privateKeyFile
          (fun hc => hpw.1 q.2.privateKeyFile (List.mem_map.mpr ⟨q, hq, rfl⟩) hc.symm)
          (Hd3 (n0, sel0) (by simp))
          (Hd3 q (by simp [hq]))
          (Hd2 q (by simp [hq]) (n0, sel0) (by simp))
          (Hd2 (n0, sel0) (by simp) q (by simp [hq]))
      rw [hstep, moveAwayOne_skip used st sel0 (Or.inr hused)]
      exact ⟨moveAwayKeys_filesAt_frame used st rest _ (fun q hq => (hcond q hq).1),
        moveAwayKeys_filesAt_frame used st rest _ (fun q hq => (hcond q hq).2)⟩
    · have hne : sel.privateKeyFile ≠ sel0.privateKeyFile :=
        hpw.1 sel0.privateKeyFile (List.mem_map.mpr ⟨(n0, sel0), hmem2, rfl⟩)
      have hdisj := sel_path_disjoint sel0.privateKeyFile sel.privateKeyFile hne
        (Hd3 (n0, sel0) hmem) (Hd3 (n, sel) (by simp))
        (Hd2 (n, sel) (by simp) (n0, sel0) hmem)
        (Hd2 (n0, sel0) hmem (n, sel) (by simp))
      have ihr := ih (moveAwayOne used st sel) hmem2 hpw.2
        (fun q hq => Hd3 q (by simp [hq]))
        (fun q hq r hr => Hd2 q (by simp [hq]) r (by simp [hr]))
      rw [hstep]
      constructor
      · rw [ihr.1, moveAwayOne_filesAt_frame used st sel _ hdisj.1.1 hdisj.1.2]
      · rw [ihr.2, moveAwayOne_filesAt_frame used st sel _ hdisj.2.1 hdisj.2.2]

theorem moveAwayKeys_sel_move (used : List (List String)) (st : State)
    (sels : List (String × Selector)) (n0 : String) (sel0 : Selector) (f : FSFile)
    (hmem : (n0, sel0) ∈ sels)
    (Hd1 : (sels.map (fun q => q.2.privateKeyFile)).Pairwise Ne)
    (Hd3 : ∀ q ∈ sels, q.2.privateKeyFile ≠ [])
    (Hd2 : ∀ q ∈ sels, ∀ r ∈ sels, retiredPath q.2.privateKeyFile ≠ r.2.privateKeyFile)
    (hused : sel0.privateKeyFile ∉ used)
    (hdst : filesAt st.files (configDirPath (retiredPath sel0.privateKeyFile)) = [])
    (hsrc : (filesAt st.files (configDirPath sel0.privateKeyFile)).head? = some f) :
    filesAt (moveAwayKeys used st sels).files (configDirPath sel0.privateKeyFile) = []
    ∧ filesAt (moveAwayKeys used st sels).files (configDirPath (retiredPath sel0.privateKeyFile))
      = [⟨configDirPath (retiredPath sel0.privateKeyFile), f.content⟩] := by
  induction sels generalizing st with
  | nil => simp at hmem
  | cons s rest ih =>
    obtain ⟨n, sel⟩ := s
    have hstep : moveAwayKeys used st ((n, sel) :: rest) =
        moveAwayKeys used (moveAwayOne used st sel) rest := rfl
    have hpw := List.pairwise_cons.mp Hd1
    rcases List.mem_cons.mp hmem with hiq | hmem2
    · injection hiq with hn hsel
      subst hn
      subst hsel
      have hsd : configDirPath (retiredPath sel0.privateKeyFile)
          ≠ configDirPath sel0.privateKeyFile := by
        intro hc
        exact retiredPath_ne sel0.privateKeyFile (configDirPath_inj _ _ hc)
      have hmf := moveAwayOne_move used st sel0 f
        (by
          intro hc
          rcases hc with hc | hc
          · exact Hd3 (n0, sel0) (by simp) hc
          · exact hused hc)
        hdst hsrc
      have hsrcAfter : filesAt (moveAwayOne used st sel0).files
          (configDirPath sel0.privateKeyFile) = [] := by
        rw [hmf, filesAt_cons, if_neg hsd]
        exact filesAt_removeFileAt_self _ _
      have hdstAfter : filesAt (moveAwayOne used st sel0).files
          (configDirPath (retiredPath sel0.privateKeyFile))
          = [⟨configDirPath (retiredPath sel0.privateKeyFile), f.content⟩] := by
        rw [hmf, filesAt_cons, if_pos rfl,
          filesAt_removeFileAt_ne _ _ _ (fun hc => hsd hc), hdst]
      have hcond : ∀ q ∈ rest,
          (configDirPath sel0.privateKeyFile ≠ configDirPath q.2.privateKeyFile
            ∧ configDirPath sel0.privateKeyFile ≠ configDirPath (retiredPath q.2.privateKeyFile))
          ∧ (configDirPath (retiredPath sel0.privateKeyFile) ≠ configDirPath q.2.privateKeyFile
            ∧ configDirPath (retiredPath sel0.privateKeyFile)
                ≠ configDirPath (retiredPath q.2.privateKeyFile)) := by
        intro q hq
        exact sel_path_disjoint sel0.privateKeyFile q.2.privateKeyFile
          (fun hc => hpw.1 q.2.privateKeyFile (List.mem_map.mpr ⟨q, hq, rfl⟩) hc.symm)
          (Hd3 (n0, sel0) (by simp))
          (Hd3 q (by simp [hq]))
          (Hd2 q (by simp [hq]) (n0, sel0) (by simp))
          (Hd2 (n0, sel0) (by simp) q (by simp [hq]))
      rw [hstep]
      constructor
      · rw [moveAwayKeys_filesAt_frame used _ rest _ (fun q hq => (hcond q hq).1)]
        exact hsrcAfter
      · rw [moveAwayKeys_filesAt_frame used _ rest _ (fun q hq => (hcond q hq).2)]
        exact hdstAfter
    · have hne : sel.privateKeyFile ≠ sel0.privateKeyFile :=
        hpw.1 sel0.privateKeyFile (List.mem_map.mpr ⟨(n0, sel0), hmem2, rfl⟩)
      have hdisj := sel_path_disjoint sel0.privateKeyFile sel.privateKeyFile hne
        (Hd3 (n0, sel0) hmem) (Hd3 (n, sel) (by simp))
        (Hd2 (n, sel) (by simp) (n0, sel0) hmem)
        (Hd2 (n0, sel0) hmem (n, sel) (by simp))
      have hdst2 : filesAt (moveAwayOne used st sel).files
          (configDirPath (retiredPath sel0.privateKeyFile)) = [] := by
        rw [moveAwayOne_filesAt_frame used st sel _ hdisj.2.1 hdisj.2.2]
        exact hdst
      have hsrc2 : (filesAt (moveAwayOne used st sel).files
          (configDirPath sel0.privateKeyFile)).head? = some f := by
        rw [moveAwayOne_filesAt_frame used st sel _ hdisj.1.1 hdisj.1.2]
        exact hsrc
      have ihr := ih (moveAwayOne used st sel) hmem2 hpw.2
        (fun q hq => Hd3 q (by simp [hq]))
        (fun q hq r hr => Hd2 q (by simp [hq]) r (by simp [hr])) hdst2 hsrc2
      rw [hstep]
      exact ihr

theorem moveAwayKeys_sel_refuse (used : List (List String)) (st : State)
    (sels : List (String × Selector)) (n0 : String) (sel0 : Selector)
    (hmem : (n0, sel0) ∈ sels)
    (Hd1 : (sels.map (fun q => q.2.privateKeyFile)).Pairwise Ne)
    (Hd3 : ∀ q ∈ sels, q.2.privateKeyFile ≠ [])
    (Hd2 : ∀ q ∈ sels, ∀ r ∈ sels, retiredPath q.2.privateKeyFile ≠ r.2.privateKeyFile)
    (hused : sel0.privateKeyFile ∉ used)
    (hdst : filesAt st.files (configDirPath (retiredPath sel0.privateKeyFile)) ≠ []) :
    filesAt (moveAwayKeys used st sels).files (configDirPath sel0.privateKeyFile)
      = filesAt st.files (configDirPath sel0.privateKeyFile)
    ∧ filesAt (moveAwayKeys used st sels).files (configDirPath (retiredPath sel0.privateKeyFile))
      = filesAt st.files (configDirPath (retiredPath sel0.privateKeyFile)) := by
  induction sels generalizing st with
  | nil => simp at hmem
  | cons s rest ih =>
    obtain ⟨n, sel⟩ := s
    have hstep : moveAwayKeys used st ((n, sel) :: rest) =
        moveAwayKeys used (moveAwayOne used st sel) rest := rfl
    have hpw := List.pairwise_cons.mp Hd1
    rcases List.mem_cons.mp hmem with hiq | hmem2
    · injection hiq with hn hsel
      subst hn
      subst hsel
      have hcond : ∀ q ∈ rest,
          (configDirPath sel0.privateKeyFile ≠ configDirPath q.2.privateKeyFile
            ∧ configDirPath sel0.privateKeyFile ≠ configDirPath (retiredPath q.2.privateKeyFile))
          ∧ (configDirPath (retiredPath sel0.privateKeyFile) ≠ configDirPath q.2.privateKeyFile
            ∧ configDirPath (retiredPath sel0.privateKeyFile)
                ≠ configDirPath (retiredPath q.2.privateKeyFile)) := by
        intro q hq
        exact sel_path_disjoint sel0.privateKeyFile q.2.privateKeyFile
          (fun hc => hpw.1 q.2.privateKeyFile (List.mem_map.mpr ⟨q, hq, rfl⟩) hc.symm)
          (Hd3 (n0, sel0) (by simp))
          (Hd3 q (by simp [hq]))
          (Hd2 q (by simp [hq]) (n0, sel0) (by simp))
          (Hd2 (n0, sel0) (by simp) q (by simp [hq]))
      rw [hstep, moveAwayOne_refuse used st sel0
        (by
          intro hc
          rcases hc with hc | hc
          · exact Hd3 (n0, sel0) (by simp) hc
          · exact hused hc)
        hdst]
      exact ⟨moveAwayKeys_filesAt_frame used st rest _ (fun q hq => (hcond q hq).1),
        moveAwayKeys_filesAt_frame used st rest _ (fun q hq => (hcond q hq).2)⟩
    · have hne : sel.privateKeyFile ≠ sel0.privateKeyFile :=
        hpw.1 sel0.privateKeyFile (List.mem_map.mpr ⟨(n0, sel0), hmem2, rfl⟩)
      have hdisj := sel_path_disjoint sel0.privateKeyFile sel.privateKeyFile hne
        (Hd3 (n0, sel0) hmem) (Hd3 (n, sel) (by simp))
        (Hd2 (n, sel) (by simp) (n0, sel0) hmem)
        (Hd2 (n0, sel0) hmem (n, sel) (by simp))
      have hdst2 : filesAt (moveAwayOne used st sel).files
          (configDirPath (retiredPath sel0.privateKeyFile)) ≠ [] := by
        rw [moveAwayOne_filesAt_frame used st sel _ hdisj.2.1 hdisj.2.2]
        exact hdst
      have ihr := ih (moveAwayOne used st sel) hmem2 hpw.2
        (fun q hq => Hd3 q (by simp [hq]))
        (fun q hq r hr => Hd2 q (by simp [hq]) r (by simp [hr])) hdst2
      rw [hstep]
      constructor
      · rw [ihr.1, moveAwayOne_filesAt_frame used st sel _ hdisj.1.1 hdisj.1.2]
      · rw [ihr.2, moveAwayOne_filesAt_frame used st sel _ hdisj.2.1 hdisj.2.2]

theorem DKIMRemove_ok_eq (st : State) (dn sn : String) (d : Domain) (sel : Selector)
    (nd : Domain) (nc : Dynamic)
    (hdom : alookup st.published.domains dn = some d)
    (hsel : alookup d.dkim.selectors sn = some sel)
    (hnd : nd = dkimRemovedDomain d sn)
    (hnc : nc = { st.published with domains := ainsert st.published.domains dn nd })
    (hvalnc : validDynamic nc = true) :
    DKIMRemove st dn sn false =
      (Res.ok (),
        moveAwayKeys (gatherUsedKeysPaths nc) { st with published := nc } [(sn, sel)]) := by
  subst hnd
  subst hnc
  simp only [dkimRemovedDomain] at hvalnc ⊢
  unfold DKIMRemove
  rw [hdom]
  simp only []
  rw [hsel]
  simp only []
  rw [WriteDynamicLocked_eq_ok _ _ _ hvalnc rfl]

theorem DomainRemove_ok_eq (st : State) (dn : String) (domConf : Domain) (nc : Dynamic)
    (hdom : alookup st.published.domains dn = some domConf)
    (htls : st.tlsPubKeys.find? (fun tpk => tpk.loginAddress.domain = dn) = none)
    (hnc : nc = { st.published with domains := aerase st.published.domains dn })
    (hvalnc : validDynamic nc = true) :
    DomainRemove st dn false false =
      (Res.ok (),
        moveAwayKeys (gatherUsedKeysPaths nc) { st with published := nc }
          domConf.dkim.selectors) := by
  subst hnc
  unfold DomainRemove
  rw [hdom]
  simp only [Bool.false_eq_true, if_false]
  rw [htls]
  simp only []
  rw [WriteDynamicLocked_eq_ok _ _ _ hvalnc rfl]

/-- C3: key retirement after selector and domain removal. For DKIMRemove on an
existing selector with a non-empty key path (valid config, no I/O failure): the
call succeeds, and the selector's key file (a) stays exactly where it is when
its path is still referenced by a selector of the new snapshot, (b) is moved
into the sibling `old/` directory under the same base name with its content
preserved and the source removed when unreferenced and the destination is free,
and (c) is left untouched at both locations — without failing the operation —
when unreferenced but the destination in `old/` already exists. For
DomainRemove, the same three-way behaviour holds for each selector of the
removed domain (its selectors' key paths pairwise distinct, non-empty, and not
colliding with a retirement destination). -/
theorem C3_key_retirement :
    (∀ (st : State) (dn sn : String) (d : Domain) (sel : Selector) (nc : Dynamic),
      alookup st.published.domains dn = some d →
      alookup d.dkim.selectors sn = some sel →
      nc = { st.published with
        domains := ainsert st.published.domains dn (dkimRemovedDomain d sn) } →
      validDynamic st.published = true →
      sel.privateKeyFile ≠ [] →
      (DKIMRemove st dn sn false).1 = Res.ok ()
      ∧ (sel.privateKeyFile ∈ gatherUsedKeysPaths nc →
          (DKIMRemove st dn sn false).2.files = st.files)
      ∧ (sel.privateKeyFile ∉ gatherUsedKeysPaths nc →
          ∀ f : FSFile,
            filesAt st.files (configDirPath (retiredPath sel.privateKeyFile)) = [] →
            (filesAt st.files (configDirPath sel.privateKeyFile)).head? = some f →
            filesAt (DKIMRemove st dn sn false).2.files (configDirPath sel.privateKeyFile) = []
            ∧ filesAt (DKIMRemove st dn sn false).2.files
                (configDirPath (retiredPath sel.privateKeyFile))
              = [⟨configDirPath (retiredPath sel.privateKeyFile), f.content⟩])
      ∧ (sel.privateKeyFile ∉ gatherUsedKeysPaths nc →
          filesAt st.files (configDirPath (retiredPath sel.privateKeyFile)) ≠ [] →
          filesAt (DKIMRemove st dn sn false).2.files (configDirPath sel.privateKeyFile)
            = filesAt st.files (configDirPath sel.privateKeyFile)
          ∧ filesAt (DKIMRemove st dn sn false).2.files
              (configDirPath (retiredPath sel.privateKeyFile))
            = filesAt st.files (configDirPath (retiredPath sel.privateKeyFile))))
    ∧ (∀ (st : State) (dn : String) (domConf : Domain) (n0 : String) (sel0 : Selector)
        (nc : Dynamic),
      alookup st.published.domains dn = some domConf →
      (n0, sel0) ∈ domConf.dkim.selectors →
      nc = { st.published with domains := aerase st.published.domains dn } →
      st.tlsPubKeys.find? (fun tpk => tpk.loginAddress.domain = dn) = none →
      validDynamic st.published = true →
      (domConf.dkim.selectors.map fun q => q.2.privateKeyFile).Pairwise Ne →
      (∀ q ∈ domConf.dkim.selectors, q.2.privateKeyFile ≠ []) →
      (∀ q ∈ domConf.dkim.selectors, ∀ r ∈ domConf.dkim.selectors,
        retiredPath q.2.privateKeyFile ≠ r.2.privateKeyFile) →
      (DomainRemove st dn false false).1 = Res.ok ()
      ∧ (sel0.privateKeyFile ∈ gatherUsedKeysPaths nc →
          filesAt (DomainRemove st dn false false).2.files (configDirPath sel0.privateKeyFile)
            = filesAt st.files (configDirPath sel0.privateKeyFile)
          ∧ filesAt (DomainRemove st dn false false).2.files
              (configDirPath (retiredPath sel0.privateKeyFile))
            = filesAt st.files (configDirPath (retiredPath sel0.privateKeyFile)))
      ∧ (sel0.privateKeyFile ∉ gatherUsedKeysPaths nc →
          ∀ f : FSFile,
            filesAt st.files (configDirPath (retiredPath sel0.privateKeyFile)) = [] →
            (filesAt st.files (configDirPath sel0.privateKeyFile)).head? = some f →
            filesAt (DomainRemove st dn false false).2.files
              (configDirPath sel0.privateKeyFile) = []
            ∧ filesAt (DomainRemove st dn false false).2.files
                (configDirPath (retiredPath sel0.privateKeyFile))
              = [⟨configDirPath (retiredPath sel0.privateKeyFile), f.content⟩])
      ∧ (sel0.privateKeyFile ∉ gatherUsedKeysPaths nc →
          filesAt st.files (configDirPath (retiredPath sel0.privateKeyFile)) ≠ [] →
          filesAt (DomainRemove st dn false false).2.files (configDirPath sel0.privateKeyFile)
            = filesAt st.files (configDirPath sel0.privateKeyFile)
          ∧ filesAt (DomainRemove st dn false false).2.files
              (configDirPath (retiredPath sel0.privateKeyFile))
            = filesAt st.files (configDirPath (retiredPath sel0.privateKeyFile)))) := by
  constructor
  · intro st dn sn d sel nc hdom hsel hnc hval hne
    have hvalnc : validDynamic nc = true := by
      subst hnc
      exact validDynamic_ainsert _ _ _ hval
        (fun q hq => (validDynamic_spec _).mp hval (dn, d) (alookup_mem _ _ _ hdom) q hq)
    have hrun := DKIMRemove_ok_eq st dn sn d sel _ nc hdom hsel rfl hnc hvalnc
    have hsingle : ∀ S : State, moveAwayKeys (gatherUsedKeysPaths nc) S [(sn, sel)]
        = moveAwayOne (gatherUsedKeysPaths nc) S sel := fun S => rfl
    refine ⟨by rw [hrun], ?_, ?_, ?_⟩
    · intro hused
      rw [hrun]
      show (moveAwayKeys (gatherUsedKeysPaths nc) { st with published := nc } [(sn, sel)]).files
        = st.files
      rw [hsingle, moveAwayOne_skip _ _ _ (Or.inr hused)]
    · intro hused f hdst hsrc
      have hres := moveAwayKeys_sel_move (gatherUsedKeysPaths nc) { st with published := nc }
        [(sn, sel)] sn sel f (by simp) (by simp)
        (fun q hq => by
          simp at hq
          subst hq
          exact hne)
        (fun q hq r hr => by
          simp at hq hr
          subst hq
          subst hr
          exact retiredPath_ne _)
        hused hdst hsrc
      rw [hrun]
      exact hres
    · intro hused hdst
      have hres := moveAwayKeys_sel_refuse (gatherUsedKeysPaths nc) { st with published := nc }
        [(sn, sel)] sn sel (by simp) (by simp)
        (fun q hq => by
          simp at hq
          subst hq
          exact hne)
        (fun q hq r hr => by
          simp at hq hr
          subst hq
          subst hr
          exact retiredPath_ne _)
        hused hdst
      rw [hrun]
      exact hres
  · intro st dn domConf n0 sel0 nc hdom hmem hnc htls hval Hd1 Hd3 Hd2
    have hvalnc : validDynamic nc = true := by
      subst hnc
      rw [validDynamic_spec]
      intro p hp q hq
      exact (validDynamic_spec _).mp hval p (mem_aerase _ _ _ hp) q hq
    have hrun := DomainRemove_ok_eq st dn domConf nc hdom htls hnc hvalnc
    refine ⟨by rw [hrun], ?_, ?_, ?_⟩
    · intro hused
      have hres := moveAwayKeys_sel_skip (gatherUsedKeysPaths nc) { st with published := nc }
        domConf.dkim.selectors n0 sel0 hmem Hd1 Hd3 Hd2 hused
      rw [hrun]
      exact hres
    · intro hused f hdst hsrc
      have hres := moveAwayKeys_sel_move (gatherUsedKeysPaths nc) { st with published := nc }
        domConf.dkim.selectors n0 sel0 f hmem Hd1 Hd3 Hd2 hused hdst hsrc
      rw [hrun]
      exact hres
    · intro hused hdst
      have hres := moveAwayKeys_sel_refuse (gatherUsedKeysPaths nc) { st with published := nc }
        domConf.dkim.selectors n0 sel0 hmem Hd1 Hd3 Hd2 hused hdst
      rw [hrun]
      exact hres

/-- Witness for C3: on the concrete state `stC3`, removing selector `s1`
moves `config/dkim/k1` to `config/dkim/old/k1` with its content, and so
does removing the whole domain `d.org`. -/
theorem C3_witness :
    (DKIMRemove stC3 "d.org" "s1" false).1 = Res.ok ()
    ∧ filesAt (DKIMRemove stC3 "d.org" "s1" false).2.files
        (configDirPath ["dkim", "k1"]) = []
    ∧ filesAt (DKIMRemove stC3 "d.org" "s1" false).2.files
        (configDirPath (retiredPath ["dkim", "k1"]))
      = [⟨configDirPath (retiredPath ["dkim", "k1"]), "KEY1"⟩]
    ∧ (DomainRemove stC3 "d.org" false false).1 = Res.ok ()
    ∧ filesAt (DomainRemove stC3 "d.org" false false).2.files
        (configDirPath ["dkim", "k1"]) = []
    ∧ filesAt (DomainRemove stC3 "d.org" false false).2.files
        (configDirPath (retiredPath ["dkim", "k1"]))
      = [⟨configDirPath (retiredPath ["dkim", "k1"]), "KEY1"⟩] := by
  have h := C3_key_retirement
  have ha := h.1 stC3 "d.org" "s1" domC3 selC3a _ rfl rfl rfl (by decide) (by decide)
  have hb := h.2 stC3 "d.org" domC3 "s1" selC3a _ rfl (by decide) rfl rfl (by decide)
    (by decide) (by decide) (by decide)
  have hamove := ha.2.2.1 (by decide) ⟨configDirPath ["dkim", "k1"], "KEY1"⟩
    (by decide) (by decide)
  have hbmove := hb.2.2.1 (by decide) ⟨configDirPath ["dkim", "k1"], "KEY1"⟩
    (by decide) (by decide)
  exact ⟨ha.1, hamove.1, hamove.2, hb.1, hbmove.1, hbmove.2⟩

theorem alookup_eq_none_of_forall {κ α : Type} [DecidableEq κ] (l : List (κ × α)) (k : κ)
    (h : ∀ x ∈ l, x.1 ≠ k) : alookup l k = none := by
  induction l with
  | nil => rfl
  | cons hd t ih =>
    obtain ⟨k0, v0⟩ := hd
    have hne : k ≠ k0 := fun hc => h (k0, v0) (by simp) hc.symm
    simp only [alookup, if_neg hne]
    exact ih (fun x hx => h x (by simp [hx]))

theorem mem_ainsert_nodup {κ α : Type} [DecidableEq κ] (l : List (κ × α)) (k : κ) (v : α)
    (x : κ × α) (hnd : (l.map Prod.fst).Nodup) (hx : x ∈ ainsert l k v) :
    x = (k, v) ∨ (x ∈ l ∧ x.1 ≠ k) := by
  induction l with
  | nil =>
    simp [ainsert] at hx
    exact Or.inl hx
  | cons hd t ih =>
    obtain ⟨k0, v0⟩ := hd
    have hnd2 := List.pairwise_cons.mp hnd
    by_cases hk : k = k0
    · subst hk
      have hx2 : x ∈ (k, v) :: t := by simpa [ainsert] using hx
      rcases List.mem_cons.mp hx2 with h | h
      · exact Or.inl h
      · refine Or.inr ⟨List.mem_cons_of_mem _ h, ?_⟩
        intro hc
        exact hnd2.1 x.1 (List.mem_map.mpr ⟨x, h, rfl⟩) hc.symm
    · simp only [ainsert, if_neg hk, List.mem_cons] at hx
      rcases hx with h | h
      · subst h
        exact Or.inr ⟨by simp, fun hc => hk hc.symm⟩
      · rcases ih hnd2.2 h with h' | ⟨h1, h2⟩
        · exact Or.inl h'
        · exact Or.inr ⟨List.mem_cons_of_mem _ h1, h2⟩

theorem takeBefore_of_not_contains (l sub : List Char) (h : listContains l sub = false) :
    takeBefore l sub = l := by
  induction l with
  | nil => rfl
  | cons c t ih =>
    simp only [listContains, Bool.or_eq_false_iff] at h
    unfold takeBefore
    rw [if_neg]
    · rw [ih h.2]
    · intro hc
      simp [h.1] at hc

theorem strTakeBefore_of_not_contains (s sub : String) (h : strContains s sub = false) :
    strTakeBefore s sub = s := by
  unfold strTakeBefore
  rw [takeBefore_of_not_contains _ _ h]

theorem foldl_strTakeBefore_id (seps : List String) (lp : String)
    (h : ∀ sep ∈ seps, strContains lp sep = false) :
    seps.foldl (fun l sep => strTakeBefore l sep) lp = lp := by
  induction seps with
  | nil => rfl
  | cons s t ih =>
    show t.foldl (fun l sep => strTakeBefore l sep) (strTakeBefore lp s) = lp
    rw [strTakeBefore_of_not_contains lp s (h s (by simp))]
    exact ih (fun sep hs => h sep (by simp [hs]))

theorem canonicalLocalpart_id (lp : String) (d : Domain)
    (h : ∀ sep ∈ d.localpartCatchallSeparatorsEffective, strContains lp sep = false) :
    canonicalLocalpart lp d = lp :=
  foldl_strTakeBefore_id _ _ h

theorem mem_accountDestinations (c : Dynamic) (acct : String) (a : Account) (addr : AddrS)
    (dst : Destination) (hp : (acct, a) ∈ c.accounts) (hq : (addr, dst) ∈ a.destinations) :
    (addr, (⟨acct, addr.localpart⟩ : ADEntry)) ∈ accountDestinations c := by
  unfold accountDestinations
  exact List.mem_flatMap.mpr ⟨(acct, a), hp, List.mem_map.mpr ⟨(addr, dst), hq, rfl⟩⟩

theorem accountDestinations_mem_inv (c : Dynamic) (x : AddrS × ADEntry)
    (hx : x ∈ accountDestinations c) :
    ∃ p ∈ c.accounts, ∃ q ∈ p.2.destinations, x = (q.1, (⟨p.1, q.1.localpart⟩ : ADEntry)) := by
  unfold accountDestinations at hx
  obtain ⟨p, hp, hx⟩ := List.mem_flatMap.mp hx
  obtain ⟨q, hq, hx⟩ := List.mem_map.mp hx
  exact ⟨p, hp, q, hq, hx.symm⟩

theorem checkAddressAvailable_ok_inv (c : Dynamic) (addr : AddrS)
    (h : checkAddressAvailable c addr = Res.ok ()) :
    ∃ dc, alookup c.domains addr.domain = some dc
      ∧ (alookup (accountDestinations c)
          ⟨canonicalLocalpart addr.localpart dc, addr.domain⟩).isSome = false
      ∧ dc.localpartCatchallSeparatorsEffective.any
          (fun sep => strContains addr.localpart sep) = false := by
  unfold checkAddressAvailable at h
  cases hdc : alookup c.domains addr.domain with
  | none => rw [hdc] at h; exact absurd h (by simp)
  | some dc =>
    rw [hdc] at h
    simp only [] at h
    refine ⟨dc, rfl, ?_, ?_⟩
    · by_cases h1 : (alookup (accountDestinations c)
          ⟨canonicalLocalpart addr.localpart dc, addr.domain⟩).isSome = true
      · rw [if_pos h1] at h; exact absurd h (by simp)
      · simpa using h1
    · by_cases h1 : (alookup (accountDestinations c)
          ⟨canonicalLocalpart addr.localpart dc, addr.domain⟩).isSome = true
      · rw [if_pos h1] at h; exact absurd h (by simp)
      · rw [if_neg h1] at h
        by_cases h2 : dc.localpartCatchallSeparatorsEffective.any
            (fun sep => strContains addr.localpart sep) = true
        · rw [if_pos h2] at h; exact absurd h (by simp)
        · simpa using h2

theorem DomainRemove_ok_domains (st : State) (dn : String) (o1 o2 : Bool)
    (h : (DomainRemove st dn o1 o2).1 = Res.ok ()) :
    alookup (DomainRemove st dn o1 o2).2.published.domains dn = none := by
  unfold DomainRemove at h ⊢
  cases hd : alookup st.published.domains dn with
  | none => rw [hd] at h; exact absurd h (by simp)
  | some domConf =>
    rw [hd] at h
    simp only [] at h ⊢
    cases o1 with
    | true => simp at h
    | false =>
      simp only [Bool.false_eq_true, if_false] at h ⊢
      cases hf : st.tlsPubKeys.find? (fun tpk => tpk.loginAddress.domain = dn) with
      | some t => rw [hf] at h; exact absurd h (by simp)
      | none =>
        rw [hf] at h
        simp only [] at h ⊢
        split at h
        · simp at h
        · rename_i u hwd
          cases u
          simp only [hwd]
          rw [moveAwayKeys_published, WriteDynamicLocked_ok_state _ _ _ hwd]
          exact alookup_aerase_self _ _

theorem AccountAdd_ok_accounts (st : State) (an : String) (address : AddrS) (io : Bool)
    (h : (AccountAdd st an address io).1 = Res.ok ()) :
    (alookup (AccountAdd st an address io).2.published.accounts an).isSome = true := by
  unfold AccountAdd at h ⊢
  by_cases h1 : (alookup st.published.accounts an).isSome = true
  · rw [if_pos h1] at h; exact absurd h (by simp)
  · rw [if_neg h1] at h ⊢
    by_cases h2 : accountDirPath an ∈ st.dirs
    · rw [if_pos h2] at h; exact absurd h (by simp)
    · rw [if_neg h2] at h ⊢
      cases hchk : checkAddressAvailable st.published address with
      | er e => rw [hchk] at h; exact absurd h (by simp)
      | ok u =>
        cases u
        rw [hchk] at h
        simp only [] at h ⊢
        rw [WriteDynamicLocked_ok_state _ _ _ h]
        simp [alookup_ainsert_self]

theorem AccountRemove_ok_accounts (st : State) (an : String) (o1 o2 o3 o4 o5 : Bool)
    (h : (AccountRemove st an o1 o2 o3 o4 o5).1 = Res.ok ()) :
    alookup (AccountRemove st an o1 o2 o3 o4 o5).2.published.accounts an = none := by
  unfold AccountRemove at h ⊢
  by_cases h1 : (alookup st.published.accounts an).isNone = true
  · rw [if_pos h1] at h; exact absurd h (by simp)
  · rw [if_neg h1] at h ⊢
    cases o1 with
    | true => simp at h
    | false =>
      simp only [Bool.false_eq_true, if_false] at h ⊢
      cases o2 with
      | true => simp at h
      | false =>
        simp only [Bool.false_eq_true, if_false] at h ⊢
        cases o3 with
        | true => simp at h
        | false =>
          simp only [Bool.false_eq_true, if_false] at h ⊢
          split at h
          · simp at h
          · rename_i u hwd
            cases u
            cases o4 with
            | true => simp at h
            | false =>
              simp only [Bool.false_eq_true, if_false]
              rw [WriteDynamicLocked_ok_state _ _ _ hwd]
              exact alookup_aerase_self _ _

theorem DKIMRemove_ok_sel (st : State) (dn sn : String) (io : Bool)
    (h : (DKIMRemove st dn sn io).1 = Res.ok ()) :
    ∃ d', alookup (DKIMRemove st dn sn io).2.published.domains dn = some d'
      ∧ alookup d'.dkim.selectors sn = none := by
  unfold DKIMRemove at h ⊢
  cases hd : alookup st.published.domains dn with
  | none => rw [hd] at h; exact absurd h (by simp)
  | some d =>
    rw [hd] at h
    simp only [] at h ⊢
    cases hsel : alookup d.dkim.selectors sn with
    | none => rw [hsel] at h; exact absurd h (by simp)
    | some sel =>
      rw [hsel] at h
      simp only [] at h ⊢
      split at h
      · simp at h
      · rename_i u hwd
        cases u
        simp only [hwd]
        rw [moveAwayKeys_published, WriteDynamicLocked_ok_state _ _ _ hwd]
        exact ⟨_, alookup_ainsert_self _ _ _, alookup_aerase_self _ _⟩

theorem AliasAdd_ok_inv (st : State) (addr : AddrS) (alias' : Alias) (io : Bool)
    (h : (AliasAdd st addr alias' io).1 = Res.ok ()) :
    ∃ dom, alookup st.published.domains addr.domain = some dom
      ∧ (AliasAdd st addr alias' io).2 =
          { st with published := { st.published with
              domains := ainsert st.published.domains addr.domain
                { dom with aliases := ainsert dom.aliases addr.localpart alias' } } } := by
  obtain ⟨dom, dom', hd, hf, hst⟩ := DomainSave_ok_inv st addr.domain
    (fun d =>
      if (alookup d.aliases addr.localpart).isSome then
        Res.er (Err.request "alias already present")
      else
        Res.ok { d with aliases := ainsert d.aliases addr.localpart alias' }) io h
  by_cases hal : (alookup dom.aliases addr.localpart).isSome = true
  · rw [if_pos hal] at hf; exact absurd hf (by simp)
  · rw [if_neg hal] at hf
    injection hf with hf
    subst hf
    exact ⟨dom, hd, hst⟩

theorem AliasRemove_ok_inv (st : State) (addr : AddrS) (io : Bool)
    (h : (AliasRemove st addr io).1 = Res.ok ()) :
    ∃ dom, alookup st.published.domains addr.domain = some dom
      ∧ (AliasRemove st addr io).2 =
          { st with published := { st.published with
              domains := ainsert st.published.domains addr.domain
                { dom with aliases := aerase dom.aliases addr.localpart } } } := by
  obtain ⟨dom, dom', hd, hf, hst⟩ := DomainSave_ok_inv st addr.domain
    (fun d =>
      if (alookup d.aliases addr.localpart).isSome = false then
        Res.er (Err.request "alias does not exist")
      else
        Res.ok { d with aliases := aerase d.aliases addr.localpart }) io h
  by_cases hal : (alookup dom.aliases addr.localpart).isSome = false
  · rw [if_pos hal] at hf; exact absurd hf (by simp)
  · rw [if_neg hal] at hf
    injection hf with hf
    subst hf
    exact ⟨dom, hd, hst⟩

theorem DomainAdd_ok_domain (st : State) (static : Static) (dis : Bool)
    (dn an lp y ts : String) (o1 o2 o3 o4 o5 : Bool)
    (h : (DomainAdd st static dis dn an lp y ts o1 o2 o3 o4 o5).1 = Res.ok ()) :
    (alookup (DomainAdd st static dis dn an lp y ts o1 o2 o3 o4 o5).2.published.domains
      dn).isSome = true := by
  unfold DomainAdd at h ⊢
  by_cases hd0 : (alookup st.published.domains dn).isSome = true
  · rw [if_pos hd0] at h; exact absurd h (by simp)
  · rw [if_neg hd0] at h ⊢
    simp only [] at h ⊢
    cases hmk : (MakeDomainConfig st dn static.hostname an static.mtastsListener y ts
        o1 o2 o3 o4).1 with
    | er e => rw [hmk] at h; exact absurd h (by simp)
    | ok pr =>
      obtain ⟨confDomain0, cleanup⟩ := pr
      rw [hmk] at h
      simp only [] at h ⊢
      by_cases h1 : ((alookup st.published.accounts an).isSome = true) ∧ lp ≠ ""
      · rw [if_pos h1] at h; exact absurd h (by simp)
      · rw [if_neg h1] at h ⊢
        by_cases h2 : ¬((alookup st.published.accounts an).isSome = true) ∧ lp = ""
        · rw [if_pos h2] at h; exact absurd h (by simp)
        · rw [if_neg h2] at h ⊢
          by_cases h3 : an = ""
          · rw [if_pos h3] at h; exact absurd h (by simp)
          · rw [if_neg h3] at h ⊢
            split at h
            · simp at h
            · rename_i u hwd
              cases u
              simp only [hwd]
              rw [WriteDynamicLocked_ok_state _ _ _ hwd]
              simp [alookup_ainsert_self]

theorem DKIMAdd_ok_inv (st : State) (dn sn algorithm hash : String)
    (hr br sh : Bool) (hdrs : List String) (lt ts : String) (o1 o2 o3 : Bool)
    (h : (DKIMAdd st dn sn algorithm hash hr br sh hdrs lt ts o1 o2 o3).1 = Res.ok ()) :
    ¬(hash ≠ "sha256" ∧ hash ≠ "sha1")
    ∧ (algorithm = "rsa" ∨ algorithm = "ed25519")
    ∧ ∃ d', alookup (DKIMAdd st dn sn algorithm hash hr br sh hdrs lt ts o1 o2 o3).2.published.domains dn = some d'
        ∧ (alookup d'.dkim.selectors sn).isSome = true := by
  unfold DKIMAdd at h ⊢
  by_cases hh : hash ≠ "sha256" ∧ hash ≠ "sha1"
  · rw [if_pos hh] at h; exact absurd h (by simp)
  · rw [if_neg hh] at h ⊢
    refine ⟨hh, ?_⟩
    by_cases halg : algorithm = "rsa" ∨ algorithm = "ed25519"
    case neg =>
      obtain ⟨ha1, ha2⟩ := not_or.mp halg
      rw [if_neg ha1, if_neg ha2] at h
      exact absurd h (by simp)
    case pos =>
      refine ⟨halg, ?_⟩
      cases hkg : (if algorithm = "rsa" then
            match MakeDKIMRSAKey o1 with
            | Res.er e => Res.er e
            | Res.ok k => Res.ok (k, "rsa2048")
          else if algorithm = "ed25519" then
            match MakeDKIMEd25519Key o1 with
            | Res.er e => Res.er e
            | Res.ok k => Res.ok (k, "ed25519")
          else Res.er (Err.internal "unknown algorithm")) with
      | er e => rw [hkg] at h; exact absurd h (by simp)
      | ok pr =>
        obtain ⟨privKey, kind⟩ := pr
        rw [hkg] at h
        simp only [] at h ⊢
        cases hd : alookup st.published.domains dn with
        | none => rw [hd] at h; exact absurd h (by simp)
        | some d =>
          rw [hd] at h
          simp only [] at h ⊢
          by_cases hsel : (alookup d.dkim.selectors sn).isSome = true
          · rw [if_pos hsel] at h; exact absurd h (by simp)
          · rw [if_neg hsel] at h ⊢
            split at h
            · simp at h
            · rename_i u hwr
              cases u
              try simp only [hwr]
              split at h
              · simp at h
              · rename_i u2 hwd
                cases u2
                try simp only [hwd]
                try simp only []
                rw [WriteDynamicLocked_ok_state _ _ _ hwd]
                exact ⟨_, alookup_ainsert_self _ _ _, by simp [alookup_ainsert_self]⟩

theorem AddressAdd_ok_inv (st : State) (address : AddrS) (account : String) (io : Bool)
    (h : (AddressAdd st address account io).1 = Res.ok ()) :
    ∃ a, alookup st.published.accounts account = some a
      ∧ (AddressAdd st address account io).2 =
          { st with published := { st.published with
              accounts := ainsert st.published.accounts account
                { a with destinations := ainsert a.destinations address ⟨""⟩ } } }
      ∧ (address.localpart = "" → (alookup st.published.domains address.domain).isNone = false)
      ∧ (address.localpart ≠ "" → checkAddressAvailable st.published address = Res.ok ()) := by
  unfold AddressAdd at h
  cases ha : alookup st.published.accounts account with
  | none => rw [ha] at h; exact absurd h (by simp)
  | some a =>
    rw [ha] at h
    simp only [] at h
    by_cases hlp : address.localpart = ""
    · rw [if_pos hlp] at h
      by_cases hdom : (alookup st.published.domains address.domain).isNone = true
      · rw [if_pos hdom] at h; exact absurd h (by simp)
      · rw [if_neg hdom] at h
        by_cases hca : (alookup (accountDestinations st.published) address).isSome = true
        · rw [if_pos hca] at h; exact absurd h (by simp)
        · rw [if_neg hca] at h
          simp only [] at h
          have hrun : (AddressAdd st address account io).2 =
              { st with published := { st.published with
                  accounts := ainsert st.published.accounts account
                    { a with destinations := ainsert a.destinations address ⟨""⟩ } } } := by
            unfold AddressAdd
            rw [ha]
            simp only []
            rw [if_pos hlp, if_neg hdom, if_neg hca]
            simp only []
            exact WriteDynamicLocked_ok_state _ _ _ h
          refine ⟨a, rfl, hrun, fun _ => ?_, fun hc => absurd hlp hc⟩
          cases hh : (alookup st.published.domains address.domain).isNone with
          | false => rfl
          | true => exact absurd hh hdom
    · rw [if_neg hlp] at h
      cases hchk : checkAddressAvailable st.published address with
      | er e => rw [hchk] at h; exact absurd h (by simp)
      | ok u =>
        cases u
        rw [hchk] at h
        simp only [] at h
        have hrun : (AddressAdd st address account io).2 =
            { st with published := { st.published with
                accounts := ainsert st.published.accounts account
                  { a with destinations := ainsert a.destinations address ⟨""⟩ } } } := by
          unfold AddressAdd
          rw [ha]
          simp only []
          rw [if_neg hlp, hchk]
          simp only []
          exact WriteDynamicLocked_ok_state _ _ _ h
        exact ⟨a, rfl, hrun, fun hc => absurd hc hlp, fun _ => rfl⟩

theorem AddressRemove_ok_inv (st : State) (address : AddrS) (ad : ADEntry) (a : Account)
    (o1 o2 o3 : Bool)
    (had : alookup (accountDestinations st.published) address = some ad)
    (ha : alookup st.published.accounts ad.account = some a)
    (h : (AddressRemove st address o1 o2 o3).1 = Res.ok ()) :
    ∃ fr doms,
      (AddressRemove st address o1 o2 o3).2 =
        { st with published :=
            { domains := doms,
              accounts := ainsert st.published.accounts ad.account
                { a with destinations := a.destinations.filter fun p => p.1 ≠ address,
                         fromIDLoginAddresses := fr, aliases := [] } } } := by
  unfold AddressRemove at h ⊢
  rw [had] at h ⊢
  simp only [] at h ⊢
  rw [ha] at h ⊢
  simp only [] at h ⊢
  split at h
  · simp at h
  · rename_i hlen
    rw [if_neg hlen]
    cases hdc : alookup st.published.domains address.domain with
    | none => try rw [hdc] at h
              exact absurd h (by simp)
    | some dc =>
      try rw [hdc] at h
      try simp only [] at h
      try simp only []
      cases o1 with
      | true => simp at h
      | false =>
        try simp only [Bool.false_eq_true, if_false] at h
        try simp only [Bool.false_eq_true, if_false]
        split at h
        · simp at h
        · rename_i hfind
          try rw [hfind]
          try simp only [] at h
          try simp only []
          split at h
          · simp at h
          · rename_i doms hpr
            try rw [hpr]
            try simp only [] at h
            try simp only []
            cases o2 with
            | true => simp at h
            | false =>
              try simp only [Bool.false_eq_true, if_false] at h
              try simp only [Bool.false_eq_true, if_false]
              split at h
              · simp at h
              · rename_i u hqc
                cases u
                try rw [hqc]
                try simp only [] at h
                try simp only []
                exact ⟨_, doms, WriteDynamicLocked_ok_state _ _ _ h⟩

/-- C7: idempotent rejection for the five add/remove pairs. After a
successful DomainAdd/DomainRemove, AccountAdd/AccountRemove,
AddressAdd/AddressRemove, AliasAdd/AliasRemove or DKIMAdd/DKIMRemove, calling
the same operation again on the resulting state with the same identifying
arguments always fails with the corresponding "already exists"/"does not
exist"-class request error and returns the state unchanged. (For
AddressRemove the published accounts map is assumed to have unique account
keys and the removed address to resolve to a single account, the §3
invariants of a parsed configuration.) -/
theorem C7_idempotent_rejection :
    (∀ (st : State) (static : Static) (dis : Bool) (dn an lp y ts : String)
        (o1 o2 o3 o4 o5 : Bool),
      (DomainAdd st static dis dn an lp y ts o1 o2 o3 o4 o5).1 = Res.ok () →
      ∀ (static2 : Static) (dis2 : Bool) (an2 lp2 y2 ts2 : String) (p1 p2 p3 p4 p5 : Bool),
        DomainAdd (DomainAdd st static dis dn an lp y ts o1 o2 o3 o4 o5).2 static2 dis2 dn
            an2 lp2 y2 ts2 p1 p2 p3 p4 p5
          = (Res.er (Err.request "domain already present"),
             (DomainAdd st static dis dn an lp y ts o1 o2 o3 o4 o5).2))
    ∧ (∀ (st : State) (dn : String) (o1 o2 : Bool),
      (DomainRemove st dn o1 o2).1 = Res.ok () →
      ∀ (p1 p2 : Bool),
        DomainRemove (DomainRemove st dn o1 o2).2 dn p1 p2
          = (Res.er (Err.request "domain does not exist"), (DomainRemove st dn o1 o2).2))
    ∧ (∀ (st : State) (an : String) (address : AddrS) (io : Bool),
      (AccountAdd st an address io).1 = Res.ok () →
      ∀ (address2 : AddrS) (io2 : Bool),
        AccountAdd (AccountAdd st an address io).2 an address2 io2
          = (Res.er (Err.request "account already present"), (AccountAdd st an address io).2))
    ∧ (∀ (st : State) (an : String) (o1 o2 o3 o4 o5 : Bool),
      (AccountRemove st an o1 o2 o3 o4 o5).1 = Res.ok () →
      ∀ (p1 p2 p3 p4 p5 : Bool),
        AccountRemove (AccountRemove st an o1 o2 o3 o4 o5).2 an p1 p2 p3 p4 p5
          = (Res.er (Err.request "open account"), (AccountRemove st an o1 o2 o3 o4 o5).2))
    ∧ (∀ (st : State) (address : AddrS) (account : String) (io : Bool),
      (AddressAdd st address account io).1 = Res.ok () →
      ∀ (io2 : Bool),
        AddressAdd (AddressAdd st address account io).2 address account io2
          = (Res.er (Err.request (if address.localpart = "" then
                "catchall address already configured for domain" else "address not available")),
             (AddressAdd st address account io).2))
    ∧ (∀ (st : State) (address : AddrS) (ad : ADEntry) (a : Account) (o1 o2 o3 : Bool),
      alookup (accountDestinations st.published) address = some ad →
      alookup st.published.accounts ad.account = some a →
      (st.published.accounts.map Prod.fst).Nodup →
      (∀ p ∈ st.published.accounts, p.1 ≠ ad.account → ∀ q ∈ p.2.destinations, q.1 ≠ address) →
      (AddressRemove st address o1 o2 o3).1 = Res.ok () →
      ∀ (p1 p2 p3 : Bool),
        AddressRemove (AddressRemove st address o1 o2 o3).2 address p1 p2 p3
          = (Res.er (Err.request "address does not exists"), (AddressRemove st address o1 o2 o3).2))
    ∧ (∀ (st : State) (addr : AddrS) (alias1 : Alias) (io : Bool),
      (AliasAdd st addr alias1 io).1 = Res.ok () →
      ∀ (alias2 : Alias) (io2 : Bool),
        AliasAdd (AliasAdd st addr alias1 io).2 addr alias2 io2
          = (Res.er (Err.request "alias already present"), (AliasAdd st addr alias1 io).2))
    ∧ (∀ (st : State) (addr : AddrS) (io : Bool),
      (AliasRemove st addr io).1 = Res.ok () →
      ∀ (io2 : Bool),
        AliasRemove (AliasRemove st addr io).2 addr io2
          = (Res.er (Err.request "alias does not exist"), (AliasRemove st addr io).2))
    ∧ (∀ (st : State) (dn sn algorithm hash : String) (hr br sh : Bool) (hdrs : List String)
        (lt ts : String) (o1 o2 o3 : Bool),
      (DKIMAdd st dn sn algorithm hash hr br sh hdrs lt ts o1 o2 o3).1 = Res.ok () →
      ∀ (hr2 br2 sh2 : Bool) (hdrs2 : List String) (lt2 ts2 : String) (w2 io2 : Bool),
        DKIMAdd (DKIMAdd st dn sn algorithm hash hr br sh hdrs lt ts o1 o2 o3).2 dn sn
            algorithm hash hr2 br2 sh2 hdrs2 lt2 ts2 false w2 io2
          = (Res.er (Err.request "selector already exists for domain"),
             (DKIMAdd st dn sn algorithm hash hr br sh hdrs lt ts o1 o2 o3).2))
    ∧ (∀ (st : State) (dn sn : String) (io : Bool),
      (DKIMRemove st dn sn io).1 = Res.ok () →
      ∀ (io2 : Bool),
        DKIMRemove (DKIMRemove st dn sn io).2 dn sn io2
          = (Res.er (Err.request "selector does not exist for domain"),
             (DKIMRemove st dn sn io).2)) := by
  refine ⟨?_, ?_, ?_, ?_, ?_, ?_, ?_, ?_, ?_, ?_⟩
  · intro st static dis dn an lp y ts o1 o2 o3 o4 o5 h static2 dis2 an2 lp2 y2 ts2 p1 p2 p3 p4 p5
    have hd := DomainAdd_ok_domain st static dis dn an lp y ts o1 o2 o3 o4 o5 h
    generalize hS : (DomainAdd st static dis dn an lp y ts o1 o2 o3 o4 o5).2 = S
    rw [hS] at hd
    simp [DomainAdd, hd]
  · intro st dn o1 o2 h p1 p2
    have hd := DomainRemove_ok_domains st dn o1 o2 h
    generalize hS : (DomainRemove st dn o1 o2).2 = S
    rw [hS] at hd
    simp [DomainRemove, hd]
  · intro st an address io h address2 io2
    have hd := AccountAdd_ok_accounts st an address io h
    generalize hS : (AccountAdd st an address io).2 = S
    rw [hS] at hd
    simp [AccountAdd, hd]
  · intro st an o1 o2 o3 o4 o5 h p1 p2 p3 p4 p5
    have hd := AccountRemove_ok_accounts st an o1 o2 o3 o4 o5 h
    generalize hS : (AccountRemove st an o1 o2 o3 o4 o5).2 = S
    rw [hS] at hd
    simp [AccountRemove, hd]
  · intro st address account io h io2
    obtain ⟨a, ha, hr2, hcat, hplain⟩ := AddressAdd_ok_inv st address account io h
    have hacc2 : alookup (AddressAdd st address account io).2.published.accounts account
        = some { a with destinations := ainsert a.destinations address ⟨""⟩ } := by
      rw [hr2]
      exact alookup_ainsert_self _ _ _
    have hdoms2 : (AddressAdd st address account io).2.published.domains
        = st.published.domains := by
      rw [hr2]
    have hmemidx : (alookup (accountDestinations (AddressAdd st address account io).2.published)
        address).isSome = true := by
      apply alookup_isSome_of_mem _ _ (⟨account, address.localpart⟩ : ADEntry)
      rw [hr2]
      exact mem_accountDestinations _ account _ address ⟨""⟩ (mem_ainsert_self _ _ _)
        (mem_ainsert_self _ _ _)
    generalize hS : (AddressAdd st address account io).2 = S
    rw [hS] at hacc2 hdoms2 hmemidx
    unfold AddressAdd
    rw [hacc2]
    simp only []
    by_cases hlp : address.localpart = ""
    · rw [if_pos hlp, if_pos hlp, hdoms2, hcat hlp]
      rw [if_neg (by simp), if_pos hmemidx]
    · rw [if_neg hlp, if_neg hlp]
      have hchk := hplain hlp
      obtain ⟨dc, hdc, hidx, hsep⟩ := checkAddressAvailable_ok_inv _ _ hchk
      have hcanon : canonicalLocalpart address.localpart dc = address.localpart := by
        apply canonicalLocalpart_id
        intro sep hs
        exact Bool.eq_false_iff.mpr ((List.any_eq_false.mp hsep) sep hs)
      have hchk2 : checkAddressAvailable S.published address
          = Res.er (Err.internal "canonicalized address already configured") := by
        unfold checkAddressAvailable
        rw [hdoms2, hdc]
        simp only []
        rw [hcanon]
        rw [show (⟨address.localpart, address.domain⟩ : AddrS) = address from rfl]
        rw [if_pos hmemidx]
      rw [hchk2]
  · intro st address ad a o1 o2 o3 had ha hnd honly h p1 p2 p3
    obtain ⟨fr, doms, hr2⟩ := AddressRemove_ok_inv st address ad a o1 o2 o3 had ha h
    have hnone : alookup (accountDestinations (AddressRemove st address o1 o2 o3).2.published)
        address = none := by
      rw [hr2]
      apply alookup_eq_none_of_forall
      intro x hx
      obtain ⟨p, hp, q, hq, hxeq⟩ := accountDestinations_mem_inv _ _ hx
      subst hxeq
      show q.1 ≠ address
      rcases mem_ainsert_nodup _ _ _ _ hnd hp with hpe | ⟨hpl, hpne⟩
      · subst hpe
        have hfil := (List.mem_filter.mp hq).2
        simpa using hfil
      · exact honly p hpl hpne q hq
    generalize hS : (AddressRemove st address o1 o2 o3).2 = S
    rw [hS] at hnone
    simp [AddressRemove, hnone]
  · intro st addr alias1 io h alias2 io2
    obtain ⟨dom, hd, hr2⟩ := AliasAdd_ok_inv st addr alias1 io h
    have hd2 : alookup (AliasAdd st addr alias1 io).2.published.domains addr.domain
        = some { dom with aliases := ainsert dom.aliases addr.localpart alias1 } := by
      rw [hr2]
      exact alookup_ainsert_self _ _ _
    generalize hS : (AliasAdd st addr alias1 io).2 = S
    rw [hS] at hd2
    unfold AliasAdd DomainSave
    rw [hd2]
    simp only []
    rw [if_pos (by simp [alookup_ainsert_self])]
  · intro st addr io h io2
    obtain ⟨dom, hd, hr2⟩ := AliasRemove_ok_inv st addr io h
    have hd2 : alookup (AliasRemove st addr io).2.published.domains addr.domain
        = some { dom with aliases := aerase dom.aliases addr.localpart } := by
      rw [hr2]
      exact alookup_ainsert_self _ _ _
    generalize hS : (AliasRemove st addr io).2 = S
    rw [hS] at hd2
    unfold AliasRemove DomainSave
    rw [hd2]
    simp only []
    rw [if_pos (by simp [alookup_aerase_self])]
  · intro st dn sn algorithm hash hr br sh hdrs lt ts o1 o2 o3 h hr2 br2 sh2 hdrs2 lt2 ts2 w2 io2
    obtain ⟨hh, halg, d', hd', hsel'⟩ :=
      DKIMAdd_ok_inv st dn sn algorithm hash hr br sh hdrs lt ts o1 o2 o3 h
    generalize hS : (DKIMAdd st dn sn algorithm hash hr br sh hdrs lt ts o1 o2 o3).2 = S
    rw [hS] at hd'
    unfold DKIMAdd
    rw [if_neg hh]
    rcases halg with h1 | h1
    · subst h1
      rw [if_pos rfl]
      simp only [MakeDKIMRSAKey, Bool.false_eq_true, if_false]
      rw [hd']
      simp only []
      rw [if_pos hsel']
    · subst h1
      rw [if_neg (by decide), if_pos rfl]
      simp only [MakeDKIMEd25519Key, Bool.false_eq_true, if_false]
      rw [hd']
      simp only []
      rw [if_pos hsel']
  · intro st dn sn io h io2
    obtain ⟨d', hd', hsel'⟩ := DKIMRemove_ok_sel st dn sn io h
    generalize hS : (DKIMRemove st dn sn io).2 = S
    rw [hS] at hd'
    simp [DKIMRemove, hd', hsel']

/-- Witness for C7: each of the ten add/remove repetitions on a concrete
state in which the first call succeeds. -/
theorem C7_witness :
    DomainAdd (DomainAdd state0 static0 false "example.org" "admin" "info" "2024" "ts"
        false false false false false).2 static0 false "example.org" "admin" "info" "2024" "ts"
        false false false false false
      = (Res.er (Err.request "domain already present"),
         (DomainAdd state0 static0 false "example.org" "admin" "info" "2024" "ts"
           false false false false false).2)
    ∧ DomainRemove (DomainRemove stOneDomain "example.org" false false).2 "example.org"
        false false
      = (Res.er (Err.request "domain does not exist"),
         (DomainRemove stOneDomain "example.org" false false).2)
    ∧ AccountAdd (AccountAdd stOneDomain "acc" ⟨"u", "example.org"⟩ false).2 "acc"
        ⟨"u", "example.org"⟩ false
      = (Res.er (Err.request "account already present"),
         (AccountAdd stOneDomain "acc" ⟨"u", "example.org"⟩ false).2)
    ∧ AccountRemove (AccountRemove stTwoAliases "acc" false false false false false).2 "acc"
        false false false false false
      = (Res.er (Err.request "open account"),
         (AccountRemove stTwoAliases "acc" false false false false false).2)
    ∧ AddressAdd (AddressAdd stC7 ⟨"v", "example.org"⟩ "acc" false).2 ⟨"v", "example.org"⟩
        "acc" false
      = (Res.er (Err.request "address not available"),
         (AddressAdd stC7 ⟨"v", "example.org"⟩ "acc" false).2)
    ∧ AddressRemove (AddressRemove stC7 ⟨"u", "example.org"⟩ false false false).2
        ⟨"u", "example.org"⟩ false false false
      = (Res.er (Err.request "address does not exists"),
         (AddressRemove stC7 ⟨"u", "example.org"⟩ false false false).2)
    ∧ AliasAdd (AliasAdd stOneDomain ⟨"l", "example.org"⟩ aliasL1 false).2
        ⟨"l", "example.org"⟩ aliasL1 false
      = (Res.er (Err.request "alias already present"),
         (AliasAdd stOneDomain ⟨"l", "example.org"⟩ aliasL1 false).2)
    ∧ AliasRemove (AliasRemove stTwoAliases ⟨"l1", "d"⟩ false).2 ⟨"l1", "d"⟩ false
      = (Res.er (Err.request "alias does not exist"),
         (AliasRemove stTwoAliases ⟨"l1", "d"⟩ false).2)
    ∧ DKIMAdd (DKIMAdd stOneDomain "example.org" "s1" "rsa" "sha256" false false false []
        "72h" "ts" false false false).2 "example.org" "s1" "rsa" "sha256" false false false []
        "72h" "ts" false false false
      = (Res.er (Err.request "selector already exists for domain"),
         (DKIMAdd stOneDomain "example.org" "s1" "rsa" "sha256" false false false []
           "72h" "ts" false false false).2)
    ∧ DKIMRemove (DKIMRemove stC3 "d.org" "s1" false).2 "d.org" "s1" false
      = (Res.er (Err.request "selector does not exist for domain"),
         (DKIMRemove stC3 "d.org" "s1" false).2) := by
  obtain ⟨h1, h2, h3, h4, h5, h6, h7, h8, h9, h10⟩ := C7_idempotent_rejection
  refine ⟨?_, ?_, ?_, ?_, ?_, ?_, ?_, ?_, ?_, ?_⟩
  · exact h1 state0 static0 false "example.org" "admin" "info" "2024" "ts"
      false false false false false (by decide) static0 false "admin" "info" "2024" "ts"
      false false false false false
  · exact h2 stOneDomain "example.org" false false (by decide) false false
  · exact h3 stOneDomain "acc" ⟨"u", "example.org"⟩ false (by decide) ⟨"u", "example.org"⟩ false
  · exact h4 stTwoAliases "acc" false false false false false (by decide)
      false false false false false
  · have h5c := h5 stC7 ⟨"v", "example.org"⟩ "acc" false (by decide) false
    rw [if_neg (by decide)] at h5c
    exact h5c
  · exact h6 stC7 ⟨"u", "example.org"⟩ ⟨"acc", "u"⟩
      ⟨"example.org", [(⟨"u", "example.org"⟩, ⟨""⟩)], [], [], "", false⟩ false false false
      (by decide) (by decide) (by decide) (by decide) (by decide) false false false
  · exact h7 stOneDomain ⟨"l", "example.org"⟩ aliasL1 false (by decide) aliasL1 false
  · exact h8 stTwoAliases ⟨"l1", "d"⟩ false (by decide) false
  · exact h9 stOneDomain "example.org" "s1" "rsa" "sha256" false false false [] "72h" "ts"
      false false false (by decide) false false false [] "72h" "ts" false false
  · exact h10 stC3 "d.org" "s1" false (by decide) false

end MoxAdmin
